import Mathlib

/-!
# OCLUtil: a verification development

Shallow embedding of `lib/SPIRV/OCLUtil.cpp` (LLVM/SPIR-V translator) and
theorems about it.

Conventions of the embedding:

* a C++ `unsigned` is a `Nat` below `2 ^ 32`; every operation that can leave
  that range is followed by an explicit `% 2 ^ 32`;
* `llvm_unreachable`, an out-of-range `std::string` access, an operand that
  cannot be read: the function returns `none`;
* an `assert` depends on the build: the functions that contain one take the
  parameter `NDEBUG`; without `NDEBUG` a failed `assert` returns `none`, with
  `NDEBUG` the `assert` expands to nothing and the code after it runs;
* a `std::string` / `StringRef` is a `List Char`, one `Char` per C++ `char`.
-/

namespace OCLUtil

/-! ## LLVM types (the part `encodeVecTypeHint` inspects) -/

/-- LLVM first-class types as far as `encodeVecTypeHint` and
`decodeVecTypeHint` distinguish them.  `fp128` stands for the floating-point
types other than half, float and double; `pointer`, `label` and `void` are
non-numeric types. -/
inductive LLVMType where
  | void
  | label
  | half
  | float
  | double
  | fp128
  | pointer
  | integer (bits : Nat)
  | vector (elt : LLVMType) (numElements : Nat)
  deriving DecidableEq, Repr

namespace LLVMType

/-- LLVM `VectorType::isValidElementType`: integers, floating-point types and
pointers; in particular never a vector. -/
def isValidElementType : LLVMType → Bool
  | integer _ => true
  | half => true
  | float => true
  | double => true
  | fp128 => true
  | pointer => true
  | _ => false

/-- The invariant LLVM keeps for every type it hands out: a vector type has a
valid element type and at least one element (`VectorType::get` asserts both). -/
def wellFormed : LLVMType → Bool
  | vector e n => e.isValidElementType && decide (0 < n)
  | _ => true

end LLVMType

open LLVMType

/-- The C++ `unsigned` modulus. -/
def UINT_MOD : Nat := 2 ^ 32

/-- `encodeVecTypeHint(Type *Ty)`, lines 149-177.  `none` is
`llvm_unreachable`. -/
def encodeVecTypeHint : LLVMType → Option Nat
  | half => some 4
  | float => some 5
  | double => some 6
  | integer bits =>
      if bits = 8 then some 0
      else if bits = 16 then some 1
      else if bits = 32 then some 2
      else if bits = 64 then some 3
      else none
  | vector EleTy Size =>
      match encodeVecTypeHint EleTy with
      | some c => some (((Size <<< 16) % UINT_MOD) ||| c)
      | none => none
  | _ => none

/-- `decodeVecTypeHint(LLVMContext &C, unsigned code)`, lines 179-206.
`code` is read as an `unsigned`; `none` is `llvm_unreachable`. -/
def decodeVecTypeHint (code : Nat) : Option LLVMType :=
  let VecWidth := (code % UINT_MOD) >>> 16
  let Scalar := (code % UINT_MOD) &&& 0xFFFF
  let ST : Option LLVMType :=
    if Scalar = 0 ∨ Scalar = 1 ∨ Scalar = 2 ∨ Scalar = 3 then
      some (integer ((1 <<< (3 + Scalar)) % UINT_MOD))
    else if Scalar = 4 then some half
    else if Scalar = 5 then some float
    else if Scalar = 6 then some double
    else none
  match ST with
  | none => none
  | some ST => if VecWidth < 1 then some ST else some (vector ST VecWidth)

/-- The seven scalar types of the code table. -/
def supportedScalars : List LLVMType :=
  [integer 8, integer 16, integer 32, integer 64, half, float, double]

/-- The scalar code of the data model: 0..3 for the integer widths 8, 16, 32,
64, then half, float, double. -/
def scalarCode : LLVMType → Option Nat
  | integer 8 => some 0
  | integer 16 => some 1
  | integer 32 => some 2
  | integer 64 => some 3
  | half => some 4
  | float => some 5
  | double => some 6
  | _ => none

/-- The type written `type(T, W)`: `T` itself for `W = 0`, else the vector of
`W` elements of `T`. -/
def typeOf (T : LLVMType) (W : Nat) : LLVMType :=
  if W = 0 then T else vector T W

/-- The scalar type of the code table for a scalar code `s`: the integer of
width `8 * 2 ^ s` for `s` in 0..3, half for 4, float for 5, double for 6. -/
def scalarOfCode (s : Nat) : LLVMType :=
  if s ≤ 3 then integer (8 * 2 ^ s)
  else if s = 4 then half
  else if s = 5 then float
  else double

/-! ## `std::string` operations used by the name rules -/

/-- `std::string::find(pat)` (and `StringRef::find`) from position 0: the
least index at which `pat` occurs in `s`; `none` is `npos`. -/
def find : List Char → List Char → Option Nat
  | [], pat => if pat.isEmpty then some 0 else none
  | c :: t, pat =>
      if pat.isPrefixOf (c :: t) then some 0
      else (find t pat).map (· + 1)

/-- `std::string::erase(pos, n)`: throws `out_of_range` (here `none`) when
`pos > size()`, otherwise removes the `min(n, size() - pos)` characters from
`pos` on. -/
def erase (s : List Char) (pos n : Nat) : Option (List Char) :=
  if pos > s.length then none else some (s.take pos ++ s.drop (pos + n))

/-- `std::string::operator[](pos)`: the character at `pos`, the terminating
`'\0'` at `pos == size()`, undefined (here `none`) beyond. -/
def charAt (s : List Char) (pos : Nat) : Option Char :=
  if pos < s.length then s.get? pos
  else if pos = s.length then some '\x00'
  else none

/-- The part of a `const char *` constant before its terminating NUL: what
`strlen` measures and what `std::string::find(const char *)` searches for. -/
def cstr (s : List Char) : List Char := s.takeWhile (· != '\x00')

/-- C `strlen`. -/
def strlen (s : List Char) : Nat := (cstr s).length

/-- The two constants of `kOCLBuiltinName` (declared in `OCLUtil.h`) that
`init` uses; their values are not part of this file and are taken as
parameters. -/
structure kOCLBuiltinName where
  SampledReadImage : List Char
  Sampled : List Char

/-! ## Argument rules (data model of the rule table) -/

/-- `SPIR::TypePrimitiveEnum`, the two values `init` passes to `setEnumArg`. -/
inductive TypePrimitiveEnum where
  | PRIMITIVE_CLK_PROFILING_INFO
  | PRIMITIVE_KERNEL_ENQUEUE_FLAGS_T
  deriving DecidableEq, Repr

/-- `SPIR::TypeAttributeEnum`, the two values `init` passes to `setArgAttr`. -/
inductive TypeAttributeEnum where
  | ATTR_CONST
  | ATTR_VOLATILE
  deriving DecidableEq, Repr

/-- Kind of an argument rule. -/
inductive RuleKind where
  | Unsigned
  | ConstPointer
  | VolatileBase
  | AtomicBase
  | VoidPointer
  | EnumTyped (domain : TypePrimitiveEnum)
  | SamplerTyped
  deriving DecidableEq, Repr

/-- One argument rule; `ArgIndex = -1` is written "last-arg" in the rule
table. -/
structure ArgumentRule where
  ArgIndex : Int
  Kind : RuleKind
  deriving DecidableEq, Repr

/-- State of a `BuiltinFuncMangleInfo` object: the working name and the rules
recorded so far, in the order they were recorded. -/
structure BuiltinFuncMangleInfo where
  UnmangledName : List Char
  Rules : List ArgumentRule
  deriving DecidableEq, Repr

/-- Modelled from the spec: the recorders `addUnsignedArg`, `addVoidPtrArg`,
`addSamplerArg`, `addAtomicArg`, `setEnumArg` and `setArgAttr` of the base
class `SPIRV::BuiltinFuncMangleInfo` are not in this file.  Following the
data model, each call records one `ArgumentRule` after those already
recorded.  This one appends a rule. -/
def record (r : ArgumentRule) (I : BuiltinFuncMangleInfo) : BuiltinFuncMangleInfo :=
  { I with Rules := I.Rules ++ [r] }

/-- Modelled from the spec: `addUnsignedArg(Ndx)` records `Ndx: Unsigned`. -/
def addUnsignedArg (Ndx : Int) (I : BuiltinFuncMangleInfo) : BuiltinFuncMangleInfo :=
  record ⟨Ndx, .Unsigned⟩ I

/-- Modelled from the spec: `addVoidPtrArg(Ndx)` records `Ndx: VoidPointer`. -/
def addVoidPtrArg (Ndx : Int) (I : BuiltinFuncMangleInfo) : BuiltinFuncMangleInfo :=
  record ⟨Ndx, .VoidPointer⟩ I

/-- Modelled from the spec: `addSamplerArg(Ndx)` records `Ndx: SamplerTyped`. -/
def addSamplerArg (Ndx : Int) (I : BuiltinFuncMangleInfo) : BuiltinFuncMangleInfo :=
  record ⟨Ndx, .SamplerTyped⟩ I

/-- Modelled from the spec: `addAtomicArg(Ndx)` records `Ndx: AtomicBase`. -/
def addAtomicArg (Ndx : Int) (I : BuiltinFuncMangleInfo) : BuiltinFuncMangleInfo :=
  record ⟨Ndx, .AtomicBase⟩ I

/-- Modelled from the spec: `setEnumArg(Ndx, Enum)` records
`Ndx: EnumTyped(Enum)`. -/
def setEnumArg (Ndx : Int) (Enum : TypePrimitiveEnum) (I : BuiltinFuncMangleInfo) :
    BuiltinFuncMangleInfo :=
  record ⟨Ndx, .EnumTyped Enum⟩ I

/-- Modelled from the spec: `setArgAttr(Ndx, Attr)` records `Ndx: ConstPointer`
for `ATTR_CONST` and `Ndx: VolatileBase` for `ATTR_VOLATILE`. -/
def setArgAttr (Ndx : Int) (Attr : TypeAttributeEnum) (I : BuiltinFuncMangleInfo) :
    BuiltinFuncMangleInfo :=
  match Attr with
  | .ATTR_CONST => record ⟨Ndx, .ConstPointer⟩ I
  | .ATTR_VOLATILE => record ⟨Ndx, .VolatileBase⟩ I

/-- `UnmangledName.erase(pos, n)` on the object. -/
def eraseName (pos n : Nat) (I : BuiltinFuncMangleInfo) : Option BuiltinFuncMangleInfo :=
  (erase I.UnmangledName pos n).map fun s => { I with UnmangledName := s }

/-- The default-constructed object `OCLBuiltinFuncMangleInfo BtnInfo;`
(lines 231, 312, 322, 330, 339): no name, no rule. -/
def BtnInfo : BuiltinFuncMangleInfo := ⟨[], []⟩

/-- `name.find(pat) == 0`. -/
def findAt0 (name : List Char) (pat : String) : Bool :=
  find name pat.toList == some 0

/-- `OCLBuiltinFuncMangleInfo::init(const std::string &UniqName)`, lines
232-305, on the object `This`.  `none`: an exception or an undefined access. -/
def init (K : kOCLBuiltinName) (This : BuiltinFuncMangleInfo) (UniqName : List Char) :
    Option BuiltinFuncMangleInfo :=
  let I : BuiltinFuncMangleInfo := { This with UnmangledName := UniqName }
  let N := I.UnmangledName
  if findAt0 N "async_work_group" then
    some (I |> addUnsignedArg (-1) |> setArgAttr 1 .ATTR_CONST)
  else if findAt0 N "write_imageui" then
    some (I |> addUnsignedArg 2)
  else if N = "prefetch".toList then
    some (I |> addUnsignedArg 1 |> setArgAttr 0 .ATTR_CONST)
  else if findAt0 N "get_" ||
      findAt0 N "barrier" ||
      findAt0 N "work_group_barrier" ||
      N = "nan".toList ||
      N = "mem_fence".toList ||
      findAt0 N "shuffle" then
    let I := I |> addUnsignedArg (-1)
    if findAt0 N "get_fence" then
      some (I |> setArgAttr 0 .ATTR_CONST |> addVoidPtrArg 0)
    else some I
  else if findAt0 N "atomic" then
    let I := I |> setArgAttr 0 .ATTR_VOLATILE |> addAtomicArg 0
    if findAt0 N "atomic_umax" || findAt0 N "atomic_umin" then
      I |> addUnsignedArg 0 |> eraseName 7 1
    else if findAt0 N "atomic_fetch_umin" || findAt0 N "atomic_fetch_umax" then
      I |> addUnsignedArg 0 |> eraseName 13 1
    else some I
  else if findAt0 N "uconvert_" then
    I |> addUnsignedArg 0 |> eraseName 0 1
  else if findAt0 N "s_" then
    I |> eraseName 0 2
  else if findAt0 N "u_" then
    I |> addUnsignedArg (-1) |> eraseName 0 2
  else if N = "capture_event_profiling_info".toList then
    some (I |> addVoidPtrArg 2 |> setEnumArg 1 .PRIMITIVE_CLK_PROFILING_INFO)
  else if N = "enqueue_kernel".toList then
    some (I |> setEnumArg 1 .PRIMITIVE_KERNEL_ENQUEUE_FLAGS_T |> addUnsignedArg 3)
  else if N = "enqueue_marker".toList then
    some (I |> setArgAttr 2 .ATTR_CONST |> addUnsignedArg 1)
  else if findAt0 N "vload" then
    some (I |> addUnsignedArg 0 |> setArgAttr 1 .ATTR_CONST)
  else if findAt0 N "vstore" then
    some (I |> addUnsignedArg 1)
  else if findAt0 N "ndrange_" then
    let I := I |> addUnsignedArg (-1)
    match charAt N 8 with
    | none => none
    | some c =>
        if c = '2' || c = '3' then some (I |> setArgAttr (-1) .ATTR_CONST)
        else some I
  else
    match find N "umax".toList with
    | some Pos => I |> addUnsignedArg (-1) |> eraseName Pos 1
    | none =>
    match find N "umin".toList with
    | some Pos => I |> addUnsignedArg (-1) |> eraseName Pos 1
    | none =>
    if (find N "broadcast".toList).isSome then
      some (I |> addUnsignedArg (-1))
    else if find N (cstr K.SampledReadImage) == some 0 then
      I |> eraseName 0 (strlen K.Sampled) |>.map (addSamplerArg 1)
    else some I

/-! ## The rule table as the specification words it (section 4.3) -/

namespace Spec

/-- "starts `p`". -/
def starts (p : String) (name : List Char) : Bool := decide (p.toList <+: name)

/-- "exactly `p`". -/
def exactly (p : String) (name : List Char) : Bool := decide (name = p.toList)

/-- "contains `p`". -/
def contains (p : String) (name : List Char) : Bool := decide (p.toList <:+: name)

/-- Removal of the one character at offset `i`. -/
def eraseChar (i : Nat) (name : List Char) : List Char := name.eraseIdx i

/-- "erase the matched `u`": the first character of the first occurrence of
`p` is removed. -/
def eraseMatched (p : List Char) : List Char → List Char
  | [] => []
  | c :: t => if p <+: c :: t then t else c :: eraseMatched p t

/-- One row of the table: a name pattern, the edit of the name and the rules
applied, both possibly depending on the name. -/
structure Row where
  pattern : List Char → Bool
  edit : List Char → List Char
  rules : List Char → List ArgumentRule

/-- The rows of the table of section 4.3, top to bottom ("none of the above"
is the default of `buildRules`). -/
def table (K : kOCLBuiltinName) : List Row :=
  [ { pattern := starts "async_work_group"
      edit := id
      rules := fun _ => [⟨-1, .Unsigned⟩, ⟨1, .ConstPointer⟩] },
    { pattern := starts "write_imageui"
      edit := id
      rules := fun _ => [⟨2, .Unsigned⟩] },
    { pattern := exactly "prefetch"
      edit := id
      rules := fun _ => [⟨1, .Unsigned⟩, ⟨0, .ConstPointer⟩] },
    { pattern := fun n => starts "get_" n || starts "barrier" n ||
        starts "work_group_barrier" n || exactly "nan" n || exactly "mem_fence" n ||
        starts "shuffle" n
      edit := id
      rules := fun n => ⟨-1, .Unsigned⟩ ::
        (if starts "get_fence" n then [⟨0, .ConstPointer⟩, ⟨0, .VoidPointer⟩] else []) },
    { pattern := starts "atomic"
      edit := fun n =>
        let n1 := if starts "atomic_umax" n || starts "atomic_umin" n then eraseChar 7 n else n
        if starts "atomic_fetch_umin" n || starts "atomic_fetch_umax" n then eraseChar 13 n1
        else n1
      rules := fun n => [⟨0, .VolatileBase⟩, ⟨0, .AtomicBase⟩] ++
        (if starts "atomic_umax" n || starts "atomic_umin" n then [⟨0, .Unsigned⟩] else []) ++
        (if starts "atomic_fetch_umin" n || starts "atomic_fetch_umax" n then [⟨0, .Unsigned⟩]
         else []) },
    { pattern := starts "uconvert_"
      edit := fun n => n.drop 1
      rules := fun _ => [⟨0, .Unsigned⟩] },
    { pattern := starts "s_"
      edit := fun n => n.drop 2
      rules := fun _ => [] },
    { pattern := starts "u_"
      edit := fun n => n.drop 2
      rules := fun _ => [⟨-1, .Unsigned⟩] },
    { pattern := exactly "capture_event_profiling_info"
      edit := id
      rules := fun _ =>
        [⟨2, .VoidPointer⟩, ⟨1, .EnumTyped .PRIMITIVE_CLK_PROFILING_INFO⟩] },
    { pattern := exactly "enqueue_kernel"
      edit := id
      rules := fun _ =>
        [⟨1, .EnumTyped .PRIMITIVE_KERNEL_ENQUEUE_FLAGS_T⟩, ⟨3, .Unsigned⟩] },
    { pattern := exactly "enqueue_marker"
      edit := id
      rules := fun _ => [⟨2, .ConstPointer⟩, ⟨1, .Unsigned⟩] },
    { pattern := starts "vload"
      edit := id
      rules := fun _ => [⟨0, .Unsigned⟩, ⟨1, .ConstPointer⟩] },
    { pattern := starts "vstore"
      edit := id
      rules := fun _ => [⟨1, .Unsigned⟩] },
    { pattern := starts "ndrange_"
      edit := id
      rules := fun n => ⟨-1, .Unsigned⟩ ::
        (if n.get? 8 = some '2' ∨ n.get? 8 = some '3' then [⟨-1, .ConstPointer⟩]
         else []) },
    { pattern := fun n => contains "umax" n || contains "umin" n
      edit := fun n =>
        if contains "umax" n then eraseMatched "umax".toList n
        else eraseMatched "umin".toList n
      rules := fun _ => [⟨-1, .Unsigned⟩] },
    { pattern := contains "broadcast"
      edit := id
      rules := fun _ => [⟨-1, .Unsigned⟩] },
    { pattern := fun n => decide (cstr K.SampledReadImage <+: n)
      edit := fun n => n.drop (cstr K.Sampled).length
      rules := fun _ => [⟨1, .SamplerTyped⟩] } ]

/-- `buildRules(uniqueName) -> (editedName, ordered list of ArgumentRule)`:
the first row, top to bottom, whose pattern matches is applied alone; with no
matching row the name is unchanged and there is no rule. -/
def buildRules (K : kOCLBuiltinName) (name : List Char) : List Char × List ArgumentRule :=
  match (table K).find? (fun r => r.pattern name) with
  | some r => (r.edit name, r.rules name)
  | none => (name, [])

end Spec

/-! ## Builtin name classifier -/

/-- The collaborators of the classifier that are declared outside this file:
the builtin recognizer, the signedness test of the last formal parameter and
the two lookup tables. -/
structure Collaborators where
  /-- `oclIsBuiltin(Name, SrcLangVer, DemangledName)`: `none` when it returns
  false; `some d` when it returns true, `d` being the demangled name it stores
  through the pointer `DemangledName` when that pointer is not null. -/
  oclIsBuiltin : List Char → Nat → Option (List Char)
  /-- `isLastFuncParamSigned(MangledName)`. -/
  isLastFuncParamSigned : List Char → Bool
  /-- `OCLExtOpMap::rfind(name, &EOC)`: the extended-instruction table, by
  name; `none` when it returns false. -/
  OCLExtOpMap_rfind : List Char → Option Nat
  /-- `OCLSPIRVBuiltinMap::find(name, &OC)`: the direct-opcode table;
  `none` when it returns false. -/
  OCLSPIRVBuiltinMap_find : List Char → Option Nat

/-- The sentinel `~0U`. -/
def NOT_FOUND : Nat := UINT_MOD - 1

/-- `getExtOp(StringRef OrigName, const std::string &GivenDemangledName)`,
lines 90-107. -/
def getExtOp (E : Collaborators) (OrigName GivenDemangledName : List Char) : Nat :=
  let DemangledName := GivenDemangledName
  match E.oclIsBuiltin OrigName 20 with
  | none => NOT_FOUND
  | some d =>
      let DemangledName := if DemangledName.isEmpty then d else DemangledName
      match E.OCLExtOpMap_rfind DemangledName with
      | some EOC => EOC
      | none =>
          let Prefix := if E.isLastFuncParamSigned OrigName then "s_".toList else "u_".toList
          match E.OCLExtOpMap_rfind (Prefix ++ DemangledName) with
          | some EOC => EOC
          | none => NOT_FOUND

/-- The fields of `OCLBuiltinTransInfo` that `getSPIRVInst` reads. -/
structure OCLBuiltinTransInfo where
  UniqName : List Char
  MangledName : List Char

/-- The extended instruction sets; `getSPIRVInst` names `SPIRVEIS_OpenCL`. -/
inductive SPIRVExtInstSetKind where
  | SPIRVEIS_OpenCL
  deriving DecidableEq, Repr

/-- The entry `getSPIRVInst` hands back: `SPIRVEntry::create(OC)` for a direct
opcode, `SPIRVEntry::create_unique(Set, ExtOp)` for an extended instruction. -/
inductive SPIRVEntry where
  | create (OC : Nat)
  | create_unique (Set : SPIRVExtInstSetKind) (ExtOp : Nat)
  deriving DecidableEq, Repr

/-- `getSPIRVInst(const OCLBuiltinTransInfo &Info)`, lines 109-120.  `none` is
the null pointer (NotFound). -/
def getSPIRVInst (E : Collaborators) (Info : OCLBuiltinTransInfo) : Option SPIRVEntry :=
  match E.OCLSPIRVBuiltinMap_find Info.UniqName with
  | some OC => some (.create OC)
  | none =>
      let ExtOp := getExtOp E Info.MangledName Info.UniqName
      if ExtOp ≠ NOT_FOUND then some (.create_unique .SPIRVEIS_OpenCL ExtOp)
      else none

/-! ## Module metadata -/

/-- A metadata operand: an integer constant, a type, or anything else. -/
inductive Metadata where
  | constInt (v : Nat)
  | type (t : LLVMType)
  | other
  deriving DecidableEq, Repr

/-- An `MDNode`: its operands. -/
structure MDNode where
  operands : List Metadata
  deriving DecidableEq, Repr

/-- A `NamedMDNode`: its entries. -/
structure NamedMDNode where
  operands : List MDNode
  deriving DecidableEq, Repr

/-- A `Module`, as far as `getNamedMetadata` shows it. -/
structure Module where
  getNamedMetadata : List Char → Option NamedMDNode

/-- Modelled from the spec: `getMDOperandAsInt(N, I)` is declared in
`SPIRVInternal.h`, not in this file.  It reads operand `I` of the record as
an integer, here its value as an `unsigned`; `none` when the record has no
operand `I` or the operand is not an integer constant. -/
def getMDOperandAsInt (N : MDNode) (I : Nat) : Option Nat :=
  match N.operands.get? I with
  | some (.constInt v) => some (v % UINT_MOD)
  | _ => none

/-- `getOCLVersion(Module *M)`, lines 128-137.  `OCLVer` is the constant
`kSPIR2MD::OCLVer`, declared outside this file.  `NDEBUG` says whether the
file is compiled with `NDEBUG`, in which case the `assert` of line 132
expands to nothing.  `none`: the assertion
`NamedMD->getNumOperands() == 1` fails, or the entry or one of its operands
cannot be read. -/
def getOCLVersion (NDEBUG : Bool) (OCLVer : List Char) (M : Module) : Option Nat :=
  match M.getNamedMetadata OCLVer with
  | none => some 0
  | some NamedMD =>
      if NDEBUG = false ∧ NamedMD.operands.length ≠ 1 then none
      else
        match NamedMD.operands.get? 0 with
        | none => none
        | some MD =>
            match getMDOperandAsInt MD 0, getMDOperandAsInt MD 1 with
            | some Major, some Minor => some ((Major * 10 + Minor) % UINT_MOD)
            | _, _ => none

/-- Collaborators in which the recognizer accepts no name and the
direct-opcode table maps `dot` to opcode 148. -/
def dotOnly : Collaborators where
  oclIsBuiltin := fun _ _ => none
  isLastFuncParamSigned := fun _ => true
  OCLExtOpMap_rfind := fun _ => none
  OCLSPIRVBuiltinMap_find := fun n => if n = "dot".toList then some 148 else none

/-- Collaborators in which `abs` is a key of both tables. -/
def bothTables : Collaborators where
  oclIsBuiltin := fun n _ => some n
  isLastFuncParamSigned := fun _ => true
  OCLExtOpMap_rfind := fun n =>
    if n = "abs".toList ∨ n = "s_abs".toList ∨ n = "u_abs".toList then some 141 else none
  OCLSPIRVBuiltinMap_find := fun n => if n = "abs".toList then some 7 else none

/-- Collaborators in which the recognizer accepts every name and demangles it
to itself, every last parameter is signed, and the extended-instruction table
holds `s_max` and `u_max` but not `max`. -/
def signedMax : Collaborators where
  oclIsBuiltin := fun n _ => some n
  isLastFuncParamSigned := fun _ => true
  OCLExtOpMap_rfind := fun n =>
    if n = "s_max".toList then some 156 else if n = "u_max".toList then some 157 else none
  OCLSPIRVBuiltinMap_find := fun _ => none

/-- A module whose only named metadata is the version record `OCLVer`, with
the given entries. -/
def moduleWithVersion (OCLVer : List Char) (entries : List MDNode) : Module where
  getNamedMetadata := fun n => if n = OCLVer then some ⟨entries⟩ else none

/-- A module without named metadata. -/
def emptyModule : Module where
  getNamedMetadata := fun _ => none

/-! ## Builtin call info -/

/-- `getAtomicBuiltinNumMemoryOrderArgs(StringRef Name)`, lines 76-80. -/
def getAtomicBuiltinNumMemoryOrderArgs (Name : List Char) : Nat :=
  if find Name "compare_exchange_strong".toList ≠ none then 2 else 1

/-- An argument operand of a call: an integer literal or any other value. -/
inductive Value where
  | constInt (v : Nat)
  | other
  deriving DecidableEq, Repr

/-- A `CallInst`: its argument operands. -/
structure CallInst where
  args : List Value
  deriving DecidableEq, Repr

/-- `CI->getNumArgOperands()`. -/
def CallInst.getNumArgOperands (CI : CallInst) : Nat := CI.args.length

/-- The `uint64_t` modulus. -/
def UINT64_MOD : Nat := 2 ^ 64

/-- Modelled from the spec: `getArgAsInt(CI, I)` is declared in
`SPIRVInternal.h`, not in this file.  It reads argument `I` of the call as an
integer literal, a `uint64_t`; `none` when the call has no argument `I` or the
argument is not an integer literal. -/
def getArgAsInt (CI : CallInst) (I : Nat) : Option Nat :=
  match CI.args.get? I with
  | some (.constInt v) => some (v % UINT64_MOD)
  | _ => none

/-- `OCLScopeKind`, an enumeration held in 32 bits:
`static_cast<OCLScopeKind>(v)` is `⟨v % 2 ^ 32⟩`. -/
structure OCLScopeKind where
  val : Nat
  deriving DecidableEq, Repr

/-- `getWorkGroupBarrierLiterals(CallInst* CI)`, lines 82-88.
`OCLMS_work_group` is the enumerator of that name, declared in `OCLUtil.h`;
`NDEBUG` says whether the `assert` of line 84 expands to nothing.  The
`uint64_t` values read by `getArgAsInt` are narrowed to the components of the
returned tuple, an `unsigned` and an `OCLScopeKind`.  `none`: the assertion
`N == 1 || N == 3` fails, or an argument that is read is not an integer
literal. -/
def getWorkGroupBarrierLiterals (NDEBUG : Bool) (OCLMS_work_group : OCLScopeKind)
    (CI : CallInst) : Option (Nat × OCLScopeKind × OCLScopeKind) :=
  let N := CI.getNumArgOperands
  if NDEBUG = false ∧ ¬ (N = 1 ∨ N = 3) then none
  else
    match getArgAsInt CI 0 with
    | none => none
    | some a0 =>
        if N = 1 then some (a0 % UINT_MOD, OCLMS_work_group, OCLMS_work_group)
        else
          match getArgAsInt CI 1 with
          | none => none
          | some a1 => some (a0 % UINT_MOD, ⟨a1 % UINT_MOD⟩, OCLMS_work_group)

/-- `decodeMDNode(MDNode* N, unsigned& X, unsigned& Y, unsigned& Z)`, lines
139-146: the values of `X`, `Y`, `Z` after the call, given their values before
it.  `N = none` is the null pointer; the result `none` means an operand could
not be read. -/
def decodeMDNode (N : Option MDNode) (X Y Z : Nat) : Option (Nat × Nat × Nat) :=
  match N with
  | none => some (X, Y, Z)
  | some N =>
      match getMDOperandAsInt N 1, getMDOperandAsInt N 2, getMDOperandAsInt N 3 with
      | some X, some Y, some Z => some (X, Y, Z)
      | _, _, _ => none

/-- The enumerators of `Op` (SPIR-V opcodes) that `getOCLOpaqueTypeAddrSpace`
names; every other opcode is `other`. -/
inductive Op where
  | OpTypePipe
  | OpTypeQueue
  | OpTypeEvent
  | OpTypeDeviceEvent
  | OpTypeSampler
  | OpTypeReserveId
  | other (code : Nat)
  deriving DecidableEq, Repr

/-- `SPIRAddressSpace`. -/
inductive SPIRAddressSpace where
  | SPIRAS_Private
  | SPIRAS_Global
  | SPIRAS_Constant
  | SPIRAS_Local
  | SPIRAS_Generic
  deriving DecidableEq, Repr

/-- `getOCLOpaqueTypeAddrSpace(Op OpCode)`, lines 213-227.
`ReservedIdAddrSpaceForOutput` is the value of the command-line option of
that name (lines 61-63). -/
def getOCLOpaqueTypeAddrSpace (ReservedIdAddrSpaceForOutput : SPIRAddressSpace)
    (OpCode : Op) : SPIRAddressSpace :=
  match OpCode with
  | .OpTypePipe => .SPIRAS_Global
  | .OpTypeQueue => .SPIRAS_Global
  | .OpTypeEvent => .SPIRAS_Global
  | .OpTypeDeviceEvent => .SPIRAS_Global
  | .OpTypeSampler => .SPIRAS_Global
  | .OpTypeReserveId => ReservedIdAddrSpaceForOutput
  | _ => .SPIRAS_Private

/-- The constants `sampled_read_image` and `sampled_`, used where a concrete
`kOCLBuiltinName` is needed. -/
def sampledNames : kOCLBuiltinName := ⟨"sampled_read_image".toList, "sampled_".toList⟩

/-! # Theorems -/

/-! ## Vector type hints -/

/-- Packing `W` above a 16-bit value `c` in an `unsigned`: no bit is lost when
`W` has at most 16 bits. -/
theorem pack_eq (W c : Nat) (hW : W < 2 ^ 16) (hc : c < 2 ^ 16) :
    ((W <<< 16) % UINT_MOD) ||| c = 2 ^ 16 * W + c := by
  have h1 : (W <<< 16) % UINT_MOD = 2 ^ 16 * W := by
    rw [Nat.shiftLeft_eq, Nat.mul_comm]
    apply Nat.mod_eq_of_lt
    simp only [UINT_MOD]
    omega
  rw [h1, ← Nat.mul_add_lt_is_or hc]

/-- The upper half of a packed code is the width. -/
theorem pack_shiftRight (W c : Nat) (hc : c < 2 ^ 16) : (2 ^ 16 * W + c) >>> 16 = W := by
  rw [Nat.shiftRight_eq_div_pow]
  omega

/-- The lower half of a packed code is the scalar code. -/
theorem pack_land (W c : Nat) (hc : c < 2 ^ 16) : (2 ^ 16 * W + c) &&& 0xFFFF = c := by
  have h : (0xFFFF : Nat) = 2 ^ 16 - 1 := by norm_num
  rw [h, Nat.and_pow_two_sub_one_eq_mod]
  omega

/-- A scalar code is at most 6. -/
theorem scalarCode_le (T : LLVMType) (s : Nat) (h : scalarCode T = some s) : s ≤ 6 := by
  unfold scalarCode at h
  split at h <;> simp at h <;> omega

/-- On a type with a scalar code the encoder returns that code. -/
theorem encode_of_scalarCode (T : LLVMType) (s : Nat) (h : scalarCode T = some s) :
    encodeVecTypeHint T = some s := by
  unfold scalarCode at h
  split at h <;> simp at h <;> subst h <;> simp [encodeVecTypeHint]

/-- The types with a scalar code are the seven supported scalars. -/
theorem scalarCode_isSome_iff (T : LLVMType) :
    (scalarCode T).isSome = true ↔ T ∈ supportedScalars := by
  unfold scalarCode supportedScalars
  split <;> simp_all

/-- The encoder succeeds on a non-vector type exactly when it has a scalar
code. -/
theorem encode_nonvector (T : LLVMType) (h : ∀ e n, T ≠ vector e n) :
    encodeVecTypeHint T = scalarCode T := by
  cases T with
  | vector e n => exact absurd rfl (h e n)
  | integer bits =>
      simp only [encodeVecTypeHint]
      split_ifs <;> subst_vars <;> first | rfl | skip
      unfold scalarCode
      split <;> simp_all
  | _ => rfl

/-- C1: round trip of the vector-type-hint codec.  For each of the seven
supported scalar types `T` and each width `W` in 0, 2, 3, 4, 8, 16, encoding
`type(T, W)` succeeds with some code and decoding that code succeeds and gives
back exactly `type(T, W)`. -/
theorem vecTypeHint_roundtrip (T : LLVMType) (W : Nat) (hT : T ∈ supportedScalars)
    (hW : W ∈ [0, 2, 3, 4, 8, 16]) :
    ∃ code, encodeVecTypeHint (typeOf T W) = some code ∧
      decodeVecTypeHint code = some (typeOf T W) := by
  simp only [supportedScalars, List.mem_cons, List.mem_singleton, List.not_mem_nil,
    or_false] at hT hW
  rcases hT with rfl | rfl | rfl | rfl | rfl | rfl | rfl <;>
    rcases hW with rfl | rfl | rfl | rfl | rfl | rfl <;>
    exact ⟨_, rfl, by decide⟩

/-- Witness of C1 at `T = float`, `W = 4`. -/
theorem vecTypeHint_roundtrip_witness :
    ∃ code, encodeVecTypeHint (typeOf float 4) = some code ∧
      decodeVecTypeHint code = some (typeOf float 4) :=
  vecTypeHint_roundtrip float 4 (by decide) (by decide)

/-- C7: packing rule of `encodeVecTypeHint`.  The seven supported scalars
encode to their scalar codes 0..6, and a vector of `W < 2 ^ 16` elements of a
scalar with code `s` encodes to `(W << 16) | s` as a 32-bit value, whose upper
16 bits are `W` and whose lower 16 bits are `s`. -/
theorem encodeVecTypeHint_packing :
    (encodeVecTypeHint (integer 8) = some 0 ∧ encodeVecTypeHint (integer 16) = some 1 ∧
      encodeVecTypeHint (integer 32) = some 2 ∧ encodeVecTypeHint (integer 64) = some 3 ∧
      encodeVecTypeHint half = some 4 ∧ encodeVecTypeHint float = some 5 ∧
      encodeVecTypeHint double = some 6) ∧
    ∀ (T : LLVMType) (s W : Nat), scalarCode T = some s → W < 2 ^ 16 →
      ∃ code, encodeVecTypeHint (vector T W) = some code ∧
        code = ((W <<< 16) ||| s) % 2 ^ 32 ∧ code < 2 ^ 32 ∧
        code >>> 16 = W ∧ code &&& 0xFFFF = s := by
  refine ⟨by decide, ?_⟩
  intro T s W hs hW
  have hs6 := scalarCode_le T s hs
  have hs16 : s < 2 ^ 16 := by omega
  have hp := pack_eq W s hW hs16
  refine ⟨2 ^ 16 * W + s, ?_, ?_, by omega, pack_shiftRight W s hs16, pack_land W s hs16⟩
  · simp only [encodeVecTypeHint, encode_of_scalarCode T s hs, hp]
  · have h2 : (W <<< 16) ||| s = 2 ^ 16 * W + s := by
      rw [Nat.shiftLeft_eq, Nat.mul_comm, ← Nat.mul_add_lt_is_or hs16]
    rw [h2, Nat.mod_eq_of_lt]
    omega

/-- Witness of C7: the vector of 4 floats. -/
theorem encodeVecTypeHint_packing_witness :
    ∃ code, encodeVecTypeHint (vector float 4) = some code ∧
      code = ((4 <<< 16) ||| 5) % 2 ^ 32 ∧ code < 2 ^ 32 ∧
      code >>> 16 = 4 ∧ code &&& 0xFFFF = 5 :=
  encodeVecTypeHint_packing.2 float 5 4 (by decide) (by decide)

/-- A valid vector element type is not a vector. -/
theorem not_vector_of_valid (e : LLVMType) (h : e.isValidElementType = true) :
    ∀ e' n, e ≠ vector e' n := by
  intro e' n he
  subst he
  simp [LLVMType.isValidElementType] at h

/-- The scalar code is absent exactly off the supported scalars. -/
theorem scalarCode_eq_none_iff (T : LLVMType) : scalarCode T = none ↔ T ∉ supportedScalars := by
  rw [← scalarCode_isSome_iff]
  cases scalarCode T <;> simp

/-- C8: `encodeVecTypeHint` fails exactly on unsupported types.  For every
LLVM type (a vector type has a valid element type, so never a vector), the
encoder fails if and only if the type is neither one of i8, i16, i32, i64,
half, float, double nor a vector of one of these.  In particular an integer of
another width, a non-numeric type, and a vector of either are rejected. -/
theorem encodeVecTypeHint_fails_iff :
    (∀ t : LLVMType, t.wellFormed = true →
      (encodeVecTypeHint t = none ↔
        ¬ (t ∈ supportedScalars ∨ ∃ e n, t = vector e n ∧ e ∈ supportedScalars))) ∧
    (∀ bits : Nat, bits ∉ [8, 16, 32, 64] →
      encodeVecTypeHint (integer bits) = none ∧
      ∀ n, encodeVecTypeHint (vector (integer bits) n) = none) ∧
    (∀ u : LLVMType, u ∈ [void, label, pointer] →
      encodeVecTypeHint u = none ∧ ∀ n, encodeVecTypeHint (vector u n) = none) := by
  refine ⟨?_, ?_, ?_⟩
  · intro t hwf
    by_cases hv : ∃ e n, t = vector e n
    · obtain ⟨e, n, rfl⟩ := hv
      have hval : e.isValidElementType = true := by
        simp only [LLVMType.wellFormed, Bool.and_eq_true] at hwf
        exact hwf.1
      have henc := encode_nonvector e (not_vector_of_valid e hval)
      have hnone := scalarCode_eq_none_iff e
      have hns : vector e n ∉ supportedScalars := by simp [supportedScalars]
      simp only [encodeVecTypeHint, henc]
      constructor
      · intro h
        have hc : scalarCode e = none := by
          cases hsc : scalarCode e with
          | none => rfl
          | some c => rw [hsc] at h; simp at h
        rintro (h1 | ⟨e', n', heq, hmem⟩)
        · exact hns h1
        · injection heq with he _
          subst he
          exact (hnone.1 hc) hmem
      · intro h
        have hc : scalarCode e = none := hnone.2 (fun hm => h (Or.inr ⟨e, n, rfl, hm⟩))
        rw [hc]
    · have hv' : ∀ e n, t ≠ vector e n := fun e n he => hv ⟨e, n, he⟩
      rw [encode_nonvector t hv', scalarCode_eq_none_iff]
      constructor
      · rintro h (h1 | ⟨e, n, heq, _⟩)
        · exact h h1
        · exact hv' e n heq
      · intro h hm
        exact h (Or.inl hm)
  · intro bits hb
    simp only [List.mem_cons, List.mem_singleton, List.not_mem_nil, or_false, not_or] at hb
    obtain ⟨h8, h16, h32, h64⟩ := hb
    have h1 : encodeVecTypeHint (integer bits) = none := by
      simp [encodeVecTypeHint, h8, h16, h32, h64]
    refine ⟨h1, fun n => ?_⟩
    simp only [encodeVecTypeHint, h8, h16, h32, h64, if_false]
  · intro u hu
    simp only [List.mem_cons, List.mem_singleton, List.not_mem_nil, or_false] at hu
    rcases hu with rfl | rfl | rfl <;> exact ⟨rfl, fun n => rfl⟩

/-- Witness of C8: the vector of four 7-bit integers is a well-formed type
that the encoder rejects. -/
theorem encodeVecTypeHint_fails_iff_witness :
    (vector (integer 7) 4).wellFormed = true ∧
    (encodeVecTypeHint (vector (integer 7) 4) = none ↔
      ¬ (vector (integer 7) 4 ∈ supportedScalars ∨
        ∃ e n, vector (integer 7) 4 = vector e n ∧ e ∈ supportedScalars)) :=
  ⟨by decide, encodeVecTypeHint_fails_iff.1 (vector (integer 7) 4) (by decide)⟩

/-- C9: shape of `decodeVecTypeHint`.  For a 32-bit code whose low 16 bits `s`
are at most 6, decoding succeeds: with upper 16 bits 0 it yields the scalar of
the code table, otherwise the vector of that scalar whose width is the upper
16 bits.  For a code whose low 16 bits exceed 6, decoding fails. -/
theorem decodeVecTypeHint_shape (code : Nat) (h : code < 2 ^ 32) :
    (code &&& 0xFFFF ≤ 6 →
      decodeVecTypeHint code =
        some (if code >>> 16 = 0 then scalarOfCode (code &&& 0xFFFF)
              else vector (scalarOfCode (code &&& 0xFFFF)) (code >>> 16))) ∧
    (6 < code &&& 0xFFFF → decodeVecTypeHint code = none) := by
  have hm : code % UINT_MOD = code := Nat.mod_eq_of_lt h
  simp only [decodeVecTypeHint, hm]
  generalize code &&& 0xFFFF = s
  generalize code >>> 16 = w
  constructor
  · intro hs
    interval_cases s <;> simp [scalarOfCode, UINT_MOD, Nat.shiftLeft_eq] <;> split_ifs <;> rfl
  · intro hs
    have h0 : ¬ (s = 0 ∨ s = 1 ∨ s = 2 ∨ s = 3) := by omega
    have h4 : s ≠ 4 := by omega
    have h5 : s ≠ 5 := by omega
    have h6 : s ≠ 6 := by omega
    simp [h0, h4, h5, h6]

/-- Witness of C9: code `0x40005` is the vector of 4 floats. -/
theorem decodeVecTypeHint_shape_witness :
    (0x40005 &&& 0xFFFF ≤ 6 →
      decodeVecTypeHint 0x40005 =
        some (if 0x40005 >>> 16 = 0 then scalarOfCode (0x40005 &&& 0xFFFF)
              else vector (scalarOfCode (0x40005 &&& 0xFFFF)) (0x40005 >>> 16))) ∧
    (6 < 0x40005 &&& 0xFFFF → decodeVecTypeHint 0x40005 = none) :=
  decodeVecTypeHint_shape 0x40005 (by decide)

/-! ## Module version -/

/-- C10: module version value.  `getOCLVersion` returns 0 for every module
with no version record, and for every module whose version record has exactly
one entry, with operands major and minor, it returns `major * 10 + minor` in
unsigned 32-bit arithmetic; the record (2, 0) gives 20.  This holds with and
without `NDEBUG`. -/
theorem getOCLVersion_value (NDEBUG : Bool) (OCLVer : List Char) :
    (∀ M : Module, M.getNamedMetadata OCLVer = none →
      getOCLVersion NDEBUG OCLVer M = some 0) ∧
    (∀ (M : Module) (MD : MDNode) (major minor : Nat) (rest : List Metadata),
      M.getNamedMetadata OCLVer = some ⟨[MD]⟩ →
      MD.operands = .constInt major :: .constInt minor :: rest →
      getOCLVersion NDEBUG OCLVer M = some ((major * 10 + minor) % 2 ^ 32)) ∧
    getOCLVersion NDEBUG OCLVer (moduleWithVersion OCLVer [⟨[.constInt 2, .constInt 0]⟩]) =
      some 20 := by
  refine ⟨?_, ?_, ?_⟩
  · intro M h
    simp [getOCLVersion, h]
  · intro M MD major minor rest h hops
    obtain ⟨ops⟩ := MD
    simp only at hops
    subst hops
    simp only [getOCLVersion, h, getMDOperandAsInt, UINT_MOD]
    simp only [List.length_singleton, ne_eq, not_true_eq_false, and_false, if_false,
      List.get?_cons_zero, List.get?_cons_succ, Option.some.injEq]
    omega
  · simp [getOCLVersion, moduleWithVersion, getMDOperandAsInt, UINT_MOD]

/-- Witness of C10: a module without named metadata has version 0, and the
record (3, 1) gives 31. -/
theorem getOCLVersion_value_witness :
    getOCLVersion false "opencl.ocl.version".toList emptyModule = some 0 ∧
    getOCLVersion false "opencl.ocl.version".toList
      (moduleWithVersion "opencl.ocl.version".toList [⟨[.constInt 3, .constInt 1]⟩]) =
        some ((3 * 10 + 1) % 2 ^ 32) :=
  ⟨(getOCLVersion_value false "opencl.ocl.version".toList).1 emptyModule rfl,
   (getOCLVersion_value false "opencl.ocl.version".toList).2.1
     (moduleWithVersion "opencl.ocl.version".toList [⟨[.constInt 3, .constInt 1]⟩])
     ⟨[.constInt 3, .constInt 1]⟩ 3 1 [] (by simp [moduleWithVersion]) rfl⟩

/-! ## Builtin name classifier -/

/-- An unrecognised raw name makes `getExtOp` return the sentinel. -/
theorem getExtOp_unrecognised (E : Collaborators) (OrigName Given : List Char)
    (h : E.oclIsBuiltin OrigName 20 = none) : getExtOp E OrigName Given = NOT_FOUND := by
  simp [getExtOp, h]

/-- Counterexample to C4: with a recognizer that accepts no name and `dot` in
the direct-opcode table, `getSPIRVInst` on raw name `dot`, unique name `dot`
returns the entry of opcode 148, not NotFound. -/
theorem getSPIRVInst_unrecognised_counterexample :
    dotOnly.oclIsBuiltin "dot".toList 20 = none ∧
    getSPIRVInst dotOnly ⟨"dot".toList, "dot".toList⟩ = some (.create 148) ∧
    getSPIRVInst dotOnly ⟨"dot".toList, "dot".toList⟩ ≠ none := by
  decide

/-- C4 (amended): for every `OCLBuiltinTransInfo` whose raw name the
recognizer rejects, `getSPIRVInst` returns NotFound if and only if the unique
name is not a key of the direct-opcode table, whatever the
extended-instruction table holds. -/
theorem getSPIRVInst_unrecognised (E : Collaborators) (Info : OCLBuiltinTransInfo)
    (h : E.oclIsBuiltin Info.MangledName 20 = none) :
    getSPIRVInst E Info = none ↔ E.OCLSPIRVBuiltinMap_find Info.UniqName = none := by
  unfold getSPIRVInst
  cases hd : E.OCLSPIRVBuiltinMap_find Info.UniqName with
  | some OC => simp
  | none => simp [getExtOp_unrecognised E _ _ h]

/-- Witness of C4 (amended): raw name `foo`, unique name `foo`, which is not
in the direct-opcode table of `dotOnly`. -/
theorem getSPIRVInst_unrecognised_witness :
    getSPIRVInst dotOnly ⟨"foo".toList, "foo".toList⟩ = none ↔
      dotOnly.OCLSPIRVBuiltinMap_find "foo".toList = none :=
  getSPIRVInst_unrecognised dotOnly ⟨"foo".toList, "foo".toList⟩ rfl

/-- C5: direct opcodes take priority.  When the unique name is a key of the
direct-opcode table with opcode `OC`, `getSPIRVInst` returns the entry created
for `OC`, whatever the extended-instruction table, the recognizer and the
signedness test are; and an extended-instruction entry is returned only when
the direct lookup misses. -/
theorem getSPIRVInst_direct_priority (E : Collaborators) (Info : OCLBuiltinTransInfo) :
    (∀ OC, E.OCLSPIRVBuiltinMap_find Info.UniqName = some OC →
      getSPIRVInst E Info = some (.create OC) ∧
      ∀ E2 : Collaborators, E2.OCLSPIRVBuiltinMap_find = E.OCLSPIRVBuiltinMap_find →
        getSPIRVInst E2 Info = some (.create OC)) ∧
    (∀ Set ExtOp, getSPIRVInst E Info = some (.create_unique Set ExtOp) →
      E.OCLSPIRVBuiltinMap_find Info.UniqName = none) := by
  constructor
  · intro OC h
    refine ⟨by simp [getSPIRVInst, h], fun E2 h2 => ?_⟩
    simp [getSPIRVInst, h2, h]
  · intro Set ExtOp h
    cases hd : E.OCLSPIRVBuiltinMap_find Info.UniqName with
    | none => rfl
    | some OC => simp [getSPIRVInst, hd] at h

/-- Witness of C5: `abs` is in both tables of `bothTables`; the direct opcode
wins. -/
theorem getSPIRVInst_direct_priority_witness :
    getSPIRVInst bothTables ⟨"abs".toList, "abs".toList⟩ = some (.create 7) :=
  ((getSPIRVInst_direct_priority bothTables ⟨"abs".toList, "abs".toList⟩).1 7 rfl).1

/-- C6: signedness-prefix retry in `getExtOp`.  For a raw name the recognizer
accepts with demangled name `d`, let `D` be the given hint when it is not
empty and `d` otherwise.  If `D` is in the extended-instruction table its code
is returned, whatever the signedness.  Otherwise the one name `s_D` (last
parameter signed) or `u_D` (not signed) is looked up: its code is returned
when it is in the table, and the sentinel `~0U` when it is not, whether or not
the name with the other prefix is in the table. -/
theorem getExtOp_retry (E : Collaborators) (OrigName Given d D : List Char)
    (h : E.oclIsBuiltin OrigName 20 = some d)
    (hD : D = if Given = [] then d else Given) :
    (∀ c, E.OCLExtOpMap_rfind D = some c → getExtOp E OrigName Given = c) ∧
    (E.OCLExtOpMap_rfind D = none → E.isLastFuncParamSigned OrigName = true →
      (∀ c, E.OCLExtOpMap_rfind ("s_".toList ++ D) = some c → getExtOp E OrigName Given = c) ∧
      (E.OCLExtOpMap_rfind ("s_".toList ++ D) = none →
        getExtOp E OrigName Given = 2 ^ 32 - 1)) ∧
    (E.OCLExtOpMap_rfind D = none → E.isLastFuncParamSigned OrigName = false →
      (∀ c, E.OCLExtOpMap_rfind ("u_".toList ++ D) = some c → getExtOp E OrigName Given = c) ∧
      (E.OCLExtOpMap_rfind ("u_".toList ++ D) = none →
        getExtOp E OrigName Given = 2 ^ 32 - 1)) := by
  have hD2 : getExtOp E OrigName Given =
      match E.OCLExtOpMap_rfind D with
      | some EOC => EOC
      | none =>
          match E.OCLExtOpMap_rfind
            ((if E.isLastFuncParamSigned OrigName then "s_".toList else "u_".toList) ++ D) with
          | some EOC => EOC
          | none => NOT_FOUND := by
    rw [hD]
    cases Given <;> simp [getExtOp, h]
  rw [hD2]
  refine ⟨?_, ?_, ?_⟩
  · intro c hc
    simp only [hc]
  · intro hn hs
    refine ⟨fun c hc => ?_, fun hc => ?_⟩
    · simp only [hn, hs, if_true, hc]
    · simp only [hn, hs, if_true, hc, NOT_FOUND, UINT_MOD]
  · intro hn hs
    refine ⟨fun c hc => ?_, fun hc => ?_⟩
    · simp only [hn, hs, Bool.false_eq_true, if_false, hc]
    · simp only [hn, hs, Bool.false_eq_true, if_false, hc, NOT_FOUND, UINT_MOD]

/-- Witness of C6: in `signedMax` the name `max` is not in the table, the last
parameter is signed, and the code of `s_max` is returned. -/
theorem getExtOp_retry_witness :
    getExtOp signedMax "max".toList [] = 156 :=
  ((getExtOp_retry signedMax "max".toList [] "max".toList "max".toList rfl rfl).2.1
    (by decide) rfl).1 156 (by decide)

/-! ## Name rules -/

/-- `find` returns 0 exactly on a prefix. -/
theorem find_eq_zero_iff (s p : List Char) : find s p = some 0 ↔ p <+: s := by
  cases s with
  | nil =>
      simp only [find]
      cases p <;> simp
  | cons c t =>
      simp only [find]
      by_cases h : p.isPrefixOf (c :: t) = true
      · simp only [h, if_true, true_iff]
        exact List.isPrefixOf_iff_prefix.1 h
      · simp only [h, Bool.false_eq_true, if_false]
        constructor
        · intro h2
          cases hf : find t p <;> simp [hf] at h2
        · intro h2
          exact absurd (List.isPrefixOf_iff_prefix.2 h2) h

/-- `name.find(pat) == 0` is "starts `pat`". -/
theorem findAt0_eq_starts (N : List Char) (p : String) : findAt0 N p = Spec.starts p N := by
  unfold findAt0 Spec.starts
  rw [Bool.eq_iff_iff]
  simp only [beq_iff_eq, decide_eq_true_eq]
  exact find_eq_zero_iff _ _

/-- `find` succeeds exactly when the pattern occurs. -/
theorem find_isSome_iff (s p : List Char) : (find s p).isSome = true ↔ p <:+: s := by
  induction s with
  | nil =>
      simp only [find]
      cases p <;> simp
  | cons c t ih =>
      simp only [find]
      by_cases h : p.isPrefixOf (c :: t) = true
      · simp only [h, if_true, Option.isSome_some, true_iff]
        exact (List.isPrefixOf_iff_prefix.1 h).isInfix
      · simp only [h, Bool.false_eq_true, if_false, Option.isSome_map', ih]
        have hp : ¬ p <+: c :: t := fun h2 => h (List.isPrefixOf_iff_prefix.2 h2)
        rw [List.infix_cons_iff]
        constructor
        · exact Or.inr
        · rintro (h2 | h2)
          · exact absurd h2 hp
          · exact h2

/-- Erasing one character at the offset `find` returns removes the first
character of the first occurrence. -/
theorem erase_find (s p : List Char) :
    ∀ i, find s p = some i → erase s i 1 = some (Spec.eraseMatched p s) := by
  induction s with
  | nil =>
      intro i h
      simp only [find] at h
      split_ifs at h
      cases h
      rfl
  | cons c t ih =>
      intro i h
      simp only [find] at h
      by_cases hp : p.isPrefixOf (c :: t) = true
      · simp only [hp, if_true, Option.some.injEq] at h
        subst h
        have hp2 : p <+: c :: t := List.isPrefixOf_iff_prefix.1 hp
        simp [erase, Spec.eraseMatched, hp2]
      · simp only [hp, Bool.false_eq_true, if_false] at h
        have hp2 : ¬ p <+: c :: t := fun h2 => hp (List.isPrefixOf_iff_prefix.2 h2)
        cases hf : find t p with
        | none => simp [hf] at h
        | some j =>
            simp only [hf, Option.map_some', Option.some.injEq] at h
            subst h
            have hj := ih j hf
            unfold erase at hj ⊢
            split_ifs at hj with hlen
            simp only [Option.some.injEq] at hj
            have hlen2 : ¬ j + 1 > (c :: t).length := by
              simp only [List.length_cons]
              omega
            simp only [hlen2, if_false, Spec.eraseMatched, hp2, List.take_succ_cons,
              List.cons_append, Option.some.injEq, List.cons.injEq, true_and]
            rw [← hj]
            congr 1

/-- Erasing from the start never fails. -/
theorem erase_zero (s : List Char) (n : Nat) : erase s 0 n = some (s.drop n) := by
  simp [erase]

/-- C3: unsigned atomic min/max names are rewritten to their signless form.
For every name that starts with `atomic_umax`, `atomic_umin`,
`atomic_fetch_umax` or `atomic_fetch_umin`, the character at the erased offset
(7, respectively 13) is the `u` before max/min, the edited name is the
original with the prefix replaced by `atomic_max`, `atomic_min`,
`atomic_fetch_max` or `atomic_fetch_min`, and the rules are exactly
[arg0: VolatileBase, arg0: AtomicBase, arg0: Unsigned]; `atomic_umax` gives
`atomic_max`. -/
theorem init_atomic_unsigned (K : kOCLBuiltinName) (rest : List Char) :
    (("atomic_umax".toList ++ rest).get? 7 = some 'u' ∧
      init K BtnInfo ("atomic_umax".toList ++ rest) =
        some ⟨"atomic_max".toList ++ rest,
          [⟨0, .VolatileBase⟩, ⟨0, .AtomicBase⟩, ⟨0, .Unsigned⟩]⟩) ∧
    (("atomic_umin".toList ++ rest).get? 7 = some 'u' ∧
      init K BtnInfo ("atomic_umin".toList ++ rest) =
        some ⟨"atomic_min".toList ++ rest,
          [⟨0, .VolatileBase⟩, ⟨0, .AtomicBase⟩, ⟨0, .Unsigned⟩]⟩) ∧
    (("atomic_fetch_umax".toList ++ rest).get? 13 = some 'u' ∧
      init K BtnInfo ("atomic_fetch_umax".toList ++ rest) =
        some ⟨"atomic_fetch_max".toList ++ rest,
          [⟨0, .VolatileBase⟩, ⟨0, .AtomicBase⟩, ⟨0, .Unsigned⟩]⟩) ∧
    (("atomic_fetch_umin".toList ++ rest).get? 13 = some 'u' ∧
      init K BtnInfo ("atomic_fetch_umin".toList ++ rest) =
        some ⟨"atomic_fetch_min".toList ++ rest,
          [⟨0, .VolatileBase⟩, ⟨0, .AtomicBase⟩, ⟨0, .Unsigned⟩]⟩) ∧
    init K BtnInfo "atomic_umax".toList =
      some ⟨"atomic_max".toList, [⟨0, .VolatileBase⟩, ⟨0, .AtomicBase⟩, ⟨0, .Unsigned⟩]⟩ := by
  refine ⟨⟨rfl, ?_⟩, ⟨rfl, ?_⟩, ⟨rfl, ?_⟩, ⟨rfl, ?_⟩, ?_⟩ <;>
    simp [init, findAt0_eq_starts, Spec.starts, BtnInfo, addUnsignedArg, setArgAttr,
      addAtomicArg, record, eraseName, erase]

/-- "contains `p`" is `find(p) != npos`. -/
theorem contains_eq (p : String) (N : List Char) :
    Spec.contains p N = (find N p.toList).isSome := by
  unfold Spec.contains
  rw [Bool.eq_iff_iff]
  simp only [decide_eq_true_eq]
  exact (find_isSome_iff N p.toList).symm

/-- `find(p) == 0` decides the prefix relation. -/
theorem find_beq_zero (N p : List Char) : (find N p == some 0) = decide (p <+: N) := by
  rw [Bool.eq_iff_iff]
  simp only [beq_iff_eq, decide_eq_true_eq]
  exact find_eq_zero_iff _ _

/-- C2: rule-table dispatch is first-match-wins over the documented table.
For every name, `init` on a fresh object succeeds and produces exactly the
edited name and the ordered rule list that `Spec.buildRules` reads off the
table of section 4.3: those of the first row, top to bottom, whose pattern
matches, that row applied alone, and the unchanged name with no rule when no
row matches. -/
theorem init_refines_table (K : kOCLBuiltinName) (name : List Char) :
    init K BtnInfo name =
      some ⟨(Spec.buildRules K name).1, (Spec.buildRules K name).2⟩ := by
  by_cases h1 : Spec.starts "async_work_group" name = true
  · simp [init, Spec.buildRules, Spec.table, findAt0_eq_starts, h1, BtnInfo, addUnsignedArg,
      setArgAttr, record]
  by_cases h2 : Spec.starts "write_imageui" name = true
  · simp [init, Spec.buildRules, Spec.table, findAt0_eq_starts, h1, h2, BtnInfo, addUnsignedArg,
      setArgAttr, record]
  by_cases h3 : name = "prefetch".toList
  · subst h3
    simp [init, Spec.buildRules, Spec.table, findAt0_eq_starts, Spec.starts, Spec.exactly,
      BtnInfo, addUnsignedArg, setArgAttr, record]
  by_cases h4 : (Spec.starts "get_" name || Spec.starts "barrier" name ||
      Spec.starts "work_group_barrier" name || Spec.exactly "nan" name ||
      Spec.exactly "mem_fence" name || Spec.starts "shuffle" name) = true
  · have h3e : Spec.exactly "prefetch" name = false := decide_eq_false h3
    have h4i : (Spec.starts "get_" name || Spec.starts "barrier" name ||
        Spec.starts "work_group_barrier" name || decide (name = "nan".toList) ||
        decide (name = "mem_fence".toList) || Spec.starts "shuffle" name) = true := h4
    by_cases h4f : Spec.starts "get_fence" name = true
    · simp only [init, Spec.buildRules, Spec.table, findAt0_eq_starts, h1, h2, h3, h3e, h4, h4i,
        h4f, List.find?, if_true, if_false, Bool.false_eq_true, BtnInfo, addUnsignedArg,
        setArgAttr, addVoidPtrArg, record, List.nil_append, List.cons_append, id]
    · simp only [init, Spec.buildRules, Spec.table, findAt0_eq_starts, h1, h2, h3, h3e, h4, h4i,
        h4f, List.find?, if_true, if_false, Bool.false_eq_true, BtnInfo, addUnsignedArg,
        setArgAttr, addVoidPtrArg, record, List.nil_append, List.cons_append, id]
  have h1n : Spec.starts "async_work_group" name = false := Bool.eq_false_iff.2 h1
  have h2n : Spec.starts "write_imageui" name = false := Bool.eq_false_iff.2 h2
  have h3n : Spec.exactly "prefetch" name = false := decide_eq_false h3
  have h4n : (Spec.starts "get_" name || Spec.starts "barrier" name ||
      Spec.starts "work_group_barrier" name || Spec.exactly "nan" name ||
      Spec.exactly "mem_fence" name || Spec.starts "shuffle" name) = false :=
    Bool.eq_false_iff.2 h4
  have h4i : (Spec.starts "get_" name || Spec.starts "barrier" name ||
      Spec.starts "work_group_barrier" name || decide (name = "nan".toList) ||
      decide (name = "mem_fence".toList) || Spec.starts "shuffle" name) = false := h4n
  by_cases h5 : Spec.starts "atomic" name = true
  · by_cases ha : (Spec.starts "atomic_umax" name || Spec.starts "atomic_umin" name) = true
    · simp only [Bool.or_eq_true, Spec.starts, decide_eq_true_eq] at ha
      rcases ha with ⟨r, rfl⟩ | ⟨r, rfl⟩ <;>
        simp [init, Spec.buildRules, Spec.table, findAt0_eq_starts, Spec.starts, Spec.exactly,
      Spec.contains, Spec.eraseChar, BtnInfo, addUnsignedArg, setArgAttr, addVoidPtrArg,
      addAtomicArg, addSamplerArg, setEnumArg, record, eraseName, erase, charAt]
    have han := Bool.eq_false_iff.2 ha
    by_cases hb : (Spec.starts "atomic_fetch_umin" name ||
        Spec.starts "atomic_fetch_umax" name) = true
    · simp only [Bool.or_eq_true, Spec.starts, decide_eq_true_eq] at hb
      rcases hb with ⟨r, rfl⟩ | ⟨r, rfl⟩ <;>
        simp [init, Spec.buildRules, Spec.table, findAt0_eq_starts, Spec.starts, Spec.exactly,
      Spec.contains, Spec.eraseChar, BtnInfo, addUnsignedArg, setArgAttr, addVoidPtrArg,
      addAtomicArg, addSamplerArg, setEnumArg, record, eraseName, erase, charAt]
    have hbn := Bool.eq_false_iff.2 hb
    simp only [init, Spec.buildRules, Spec.table, findAt0_eq_starts, List.find?, if_true, if_false,
      Bool.false_eq_true, BtnInfo, addUnsignedArg, setArgAttr, addVoidPtrArg, addAtomicArg,
      addSamplerArg, setEnumArg, record, eraseName, erase_zero, Option.map_some', List.nil_append,
      List.cons_append, List.append_nil, id, h1n, h2n, h3, h3n, h4n, h4i, h5, han, hbn]
  have h5n : Spec.starts "atomic" name = false := Bool.eq_false_iff.2 h5
  by_cases h6 : Spec.starts "uconvert_" name = true
  · simp only [init, Spec.buildRules, Spec.table, findAt0_eq_starts, List.find?, if_true, if_false,
      Bool.false_eq_true, BtnInfo, addUnsignedArg, setArgAttr, addVoidPtrArg, addAtomicArg,
      addSamplerArg, setEnumArg, record, eraseName, erase_zero, Option.map_some', List.nil_append,
      List.cons_append, List.append_nil, id, h1n, h2n, h3, h3n, h4n, h4i, h5n, h6]
  have h6n : Spec.starts "uconvert_" name = false := Bool.eq_false_iff.2 h6
  by_cases h7 : Spec.starts "s_" name = true
  · simp only [init, Spec.buildRules, Spec.table, findAt0_eq_starts, List.find?, if_true, if_false,
      Bool.false_eq_true, BtnInfo, addUnsignedArg, setArgAttr, addVoidPtrArg, addAtomicArg,
      addSamplerArg, setEnumArg, record, eraseName, erase_zero, Option.map_some', List.nil_append,
      List.cons_append, List.append_nil, id, h1n, h2n, h3, h3n, h4n, h4i, h5n, h6n, h7]
  have h7n : Spec.starts "s_" name = false := Bool.eq_false_iff.2 h7
  by_cases h8 : Spec.starts "u_" name = true
  · simp only [init, Spec.buildRules, Spec.table, findAt0_eq_starts, List.find?, if_true, if_false,
      Bool.false_eq_true, BtnInfo, addUnsignedArg, setArgAttr, addVoidPtrArg, addAtomicArg,
      addSamplerArg, setEnumArg, record, eraseName, erase_zero, Option.map_some', List.nil_append,
      List.cons_append, List.append_nil, id, h1n, h2n, h3, h3n, h4n, h4i, h5n, h6n, h7n, h8]
  have h8n : Spec.starts "u_" name = false := Bool.eq_false_iff.2 h8
  by_cases h9 : name = "capture_event_profiling_info".toList
  · subst h9
    simp [init, Spec.buildRules, Spec.table, findAt0_eq_starts, Spec.starts, Spec.exactly,
      Spec.contains, Spec.eraseChar, BtnInfo, addUnsignedArg, setArgAttr, addVoidPtrArg,
      addAtomicArg, addSamplerArg, setEnumArg, record, eraseName, erase, charAt]
  have h9n : Spec.exactly "capture_event_profiling_info" name = false := decide_eq_false h9
  by_cases h10 : name = "enqueue_kernel".toList
  · subst h10
    simp [init, Spec.buildRules, Spec.table, findAt0_eq_starts, Spec.starts, Spec.exactly,
      Spec.contains, Spec.eraseChar, BtnInfo, addUnsignedArg, setArgAttr, addVoidPtrArg,
      addAtomicArg, addSamplerArg, setEnumArg, record, eraseName, erase, charAt]
  have h10n : Spec.exactly "enqueue_kernel" name = false := decide_eq_false h10
  by_cases h11 : name = "enqueue_marker".toList
  · subst h11
    simp [init, Spec.buildRules, Spec.table, findAt0_eq_starts, Spec.starts, Spec.exactly,
      Spec.contains, Spec.eraseChar, BtnInfo, addUnsignedArg, setArgAttr, addVoidPtrArg,
      addAtomicArg, addSamplerArg, setEnumArg, record, eraseName, erase, charAt]
  have h11n : Spec.exactly "enqueue_marker" name = false := decide_eq_false h11
  by_cases h12 : Spec.starts "vload" name = true
  · simp only [init, Spec.buildRules, Spec.table, findAt0_eq_starts, List.find?, if_true, if_false,
      Bool.false_eq_true, BtnInfo, addUnsignedArg, setArgAttr, addVoidPtrArg, addAtomicArg,
      addSamplerArg, setEnumArg, record, eraseName, erase_zero, Option.map_some', List.nil_append,
      List.cons_append, List.append_nil, id, h1n, h2n, h3, h3n, h4n, h4i, h5n, h6n, h7n, h8n, h9, h9n, h10, h10n, h11,
      h11n, h12]
  have h12n : Spec.starts "vload" name = false := Bool.eq_false_iff.2 h12
  by_cases h13 : Spec.starts "vstore" name = true
  · simp only [init, Spec.buildRules, Spec.table, findAt0_eq_starts, List.find?, if_true, if_false,
      Bool.false_eq_true, BtnInfo, addUnsignedArg, setArgAttr, addVoidPtrArg, addAtomicArg,
      addSamplerArg, setEnumArg, record, eraseName, erase_zero, Option.map_some', List.nil_append,
      List.cons_append, List.append_nil, id, h1n, h2n, h3, h3n, h4n, h4i, h5n, h6n, h7n, h8n, h9, h9n, h10, h10n, h11,
      h11n, h12n, h13]
  have h13n : Spec.starts "vstore" name = false := Bool.eq_false_iff.2 h13
  by_cases h14 : Spec.starts "ndrange_" name = true
  · simp only [Spec.starts, decide_eq_true_eq] at h14
    obtain ⟨r, rfl⟩ := h14
    cases r with
    | nil => simp [init, Spec.buildRules, Spec.table, findAt0_eq_starts, Spec.starts, Spec.exactly,
      Spec.contains, Spec.eraseChar, BtnInfo, addUnsignedArg, setArgAttr, addVoidPtrArg,
      addAtomicArg, addSamplerArg, setEnumArg, record, eraseName, erase, charAt]
    | cons c r =>
        by_cases hc2 : c = '2'
        · subst hc2
          simp [init, Spec.buildRules, Spec.table, findAt0_eq_starts, Spec.starts, Spec.exactly,
      Spec.contains, Spec.eraseChar, BtnInfo, addUnsignedArg, setArgAttr, addVoidPtrArg,
      addAtomicArg, addSamplerArg, setEnumArg, record, eraseName, erase, charAt]
        by_cases hc3 : c = '3'
        · subst hc3
          simp [init, Spec.buildRules, Spec.table, findAt0_eq_starts, Spec.starts, Spec.exactly,
      Spec.contains, Spec.eraseChar, BtnInfo, addUnsignedArg, setArgAttr, addVoidPtrArg,
      addAtomicArg, addSamplerArg, setEnumArg, record, eraseName, erase, charAt]
        simp [init, Spec.buildRules, Spec.table, findAt0_eq_starts, Spec.starts, Spec.exactly,
      Spec.contains, Spec.eraseChar, BtnInfo, addUnsignedArg, setArgAttr, addVoidPtrArg,
      addAtomicArg, addSamplerArg, setEnumArg, record, eraseName, erase, charAt, hc2, hc3]
  have h14n : Spec.starts "ndrange_" name = false := Bool.eq_false_iff.2 h14
  cases hf : find name "umax".toList with
  | some Pos =>
      have hc : Spec.contains "umax" name = true := by
        rw [contains_eq, hf]
        rfl
      simp only [init, Spec.buildRules, Spec.table, findAt0_eq_starts, List.find?, if_true, if_false,
      Bool.false_eq_true, BtnInfo, addUnsignedArg, setArgAttr, addVoidPtrArg, addAtomicArg,
      addSamplerArg, setEnumArg, record, eraseName, erase_zero, Option.map_some', List.nil_append,
      List.cons_append, List.append_nil, id, h1n, h2n, h3, h3n, h4n, h4i, h5n, h6n, h7n, h8n, h9, h9n, h10, h10n, h11,
      h11n, h12n, h13n, h14n, hf, hc, erase_find _ _ _ hf, Bool.true_or]
  | none =>
      have hc : Spec.contains "umax" name = false := by
        rw [contains_eq, hf]
        rfl
      cases hf2 : find name "umin".toList with
      | some Pos =>
          have hc2 : Spec.contains "umin" name = true := by
            rw [contains_eq, hf2]
            rfl
          simp only [init, Spec.buildRules, Spec.table, findAt0_eq_starts, List.find?, if_true, if_false,
      Bool.false_eq_true, BtnInfo, addUnsignedArg, setArgAttr, addVoidPtrArg, addAtomicArg,
      addSamplerArg, setEnumArg, record, eraseName, erase_zero, Option.map_some', List.nil_append,
      List.cons_append, List.append_nil, id, h1n, h2n, h3, h3n, h4n, h4i, h5n, h6n, h7n, h8n, h9, h9n, h10, h10n, h11,
      h11n, h12n, h13n, h14n, hf, hf2, hc, hc2, erase_find _ _ _ hf2, Bool.false_or]
      | none =>
          have hc2 : Spec.contains "umin" name = false := by
            rw [contains_eq, hf2]
            rfl
          by_cases h16 : Spec.contains "broadcast" name = true
          · have h16i : (find name "broadcast".toList).isSome = true := by
              rw [← contains_eq]
              exact h16
            simp only [init, Spec.buildRules, Spec.table, findAt0_eq_starts, List.find?, if_true, if_false,
      Bool.false_eq_true, BtnInfo, addUnsignedArg, setArgAttr, addVoidPtrArg, addAtomicArg,
      addSamplerArg, setEnumArg, record, eraseName, erase_zero, Option.map_some', List.nil_append,
      List.cons_append, List.append_nil, id, h1n, h2n, h3, h3n, h4n, h4i, h5n, h6n, h7n, h8n, h9, h9n, h10, h10n, h11,
      h11n, h12n, h13n, h14n, hf, hf2, hc, hc2, h16, h16i, Bool.false_or]
          have h16n : Spec.contains "broadcast" name = false := Bool.eq_false_iff.2 h16
          have h16i : (find name "broadcast".toList).isSome = false := by
            rw [← contains_eq]
            exact h16n
          by_cases h17 : cstr K.SampledReadImage <+: name
          · simp only [init, Spec.buildRules, Spec.table, findAt0_eq_starts, List.find?, if_true, if_false,
      Bool.false_eq_true, BtnInfo, addUnsignedArg, setArgAttr, addVoidPtrArg, addAtomicArg,
      addSamplerArg, setEnumArg, record, eraseName, erase_zero, Option.map_some', List.nil_append,
      List.cons_append, List.append_nil, id, h1n, h2n, h3, h3n, h4n, h4i, h5n, h6n, h7n, h8n, h9, h9n, h10, h10n, h11,
      h11n, h12n, h13n, h14n, hf, hf2, hc, hc2, h16n, h16i, Bool.false_or,
              find_beq_zero, h17, decide_True, strlen]
          · simp only [init, Spec.buildRules, Spec.table, findAt0_eq_starts, List.find?, if_true, if_false,
      Bool.false_eq_true, BtnInfo, addUnsignedArg, setArgAttr, addVoidPtrArg, addAtomicArg,
      addSamplerArg, setEnumArg, record, eraseName, erase_zero, Option.map_some', List.nil_append,
      List.cons_append, List.append_nil, id, h1n, h2n, h3, h3n, h4n, h4i, h5n, h6n, h7n, h8n, h9, h9n, h10, h10n, h11,
      h11n, h12n, h13n, h14n, hf, hf2, hc, hc2, h16n, h16i, Bool.false_or,
              find_beq_zero, h17, decide_False]

/-! ## Module metadata, continued -/

/-- With assertions enabled, a version record that is present with a number
of entries other than one makes `getOCLVersion` fail. -/
theorem getOCLVersion_assert_fails (OCLVer : List Char) (M : Module) (NamedMD : NamedMDNode)
    (h : M.getNamedMetadata OCLVer = some NamedMD) (hn : NamedMD.operands.length ≠ 1) :
    getOCLVersion false OCLVer M = none := by
  simp only [getOCLVersion, h, hn, ne_eq, not_false_eq_true, and_self, if_true]

/-- With `NDEBUG`, a version record of two or more entries whose first entry
has the operands major and minor gives the value of that first entry. -/
theorem getOCLVersion_ndebug_first_entry (OCLVer : List Char) (M : Module)
    (major minor : Nat) (rest : List Metadata) (more : List MDNode)
    (h : M.getNamedMetadata OCLVer =
      some ⟨⟨.constInt major :: .constInt minor :: rest⟩ :: more⟩) :
    getOCLVersion true OCLVer M = some ((major * 10 + minor) % 2 ^ 32) := by
  simp only [getOCLVersion, h, getMDOperandAsInt, UINT_MOD]
  simp only [Bool.true_eq_false, false_and, if_false, List.get?_cons_zero,
    List.get?_cons_succ, Option.some.injEq]
  omega

/-- C11: a malformed version record is meant to be fatal, and is not in every
build.  On the module whose version record has the two entries (2, 0) and
(1, 2), `getOCLVersion` fails when assertions are enabled, but with `NDEBUG`
the `assert` of line 132 is gone and it returns 20, the value of the first
entry. -/
theorem getOCLVersion_malformed_two_entries :
    getOCLVersion false "opencl.ocl.version".toList
        (moduleWithVersion "opencl.ocl.version".toList
          [⟨[.constInt 2, .constInt 0]⟩, ⟨[.constInt 1, .constInt 2]⟩]) = none ∧
    getOCLVersion true "opencl.ocl.version".toList
        (moduleWithVersion "opencl.ocl.version".toList
          [⟨[.constInt 2, .constInt 0]⟩, ⟨[.constInt 1, .constInt 2]⟩]) = some 20 := by
  decide

/-- C15: `decodeMDNode` on an absent record is a no-op.  With a null node the
values of `X`, `Y`, `Z` after the call are those before it, whatever they are
(so the output is (0, 0, 0) only when the caller supplied zeros); with a node
present they become its operands 1, 2, 3 as `unsigned`, whatever operand 0
and the values before the call are. -/
theorem decodeMDNode_absent_noop (X Y Z : Nat) :
    decodeMDNode none X Y Z = some (X, Y, Z) ∧
    (decodeMDNode none X Y Z = some (0, 0, 0) ↔ X = 0 ∧ Y = 0 ∧ Z = 0) ∧
    ∀ (op0 : Metadata) (x y z : Nat) (rest : List Metadata),
      decodeMDNode (some ⟨op0 :: .constInt x :: .constInt y :: .constInt z :: rest⟩) X Y Z =
        some (x % 2 ^ 32, y % 2 ^ 32, z % 2 ^ 32) := by
  refine ⟨rfl, ?_, ?_⟩
  · simp [decodeMDNode]
  · intro op0 x y z rest
    simp [decodeMDNode, getMDOperandAsInt, UINT_MOD]

/-! ## Builtin call info -/

/-- C12: barrier literal defaulting.  A 1-argument call gives
(arg0, work-group, work-group); a 3-argument call gives
(arg0, arg1 as a scope, work-group), whatever argument 2 is; arg0 is returned
as an `unsigned` and arg1 as a 32-bit scope, so a literal below `2 ^ 32` is
returned as it is.  The third component of every result is work-group.  This
holds with and without `NDEBUG`. -/
theorem getWorkGroupBarrierLiterals_default (NDEBUG : Bool) (wg : OCLScopeKind) :
    (∀ a0 : Nat,
      getWorkGroupBarrierLiterals NDEBUG wg ⟨[.constInt a0]⟩ = some (a0 % 2 ^ 32, wg, wg)) ∧
    (∀ (a0 a1 : Nat) (arg2 : Value),
      getWorkGroupBarrierLiterals NDEBUG wg ⟨[.constInt a0, .constInt a1, arg2]⟩ =
        some (a0 % 2 ^ 32, ⟨a1 % 2 ^ 32⟩, wg)) ∧
    (∀ a0 : Nat, a0 < 2 ^ 32 →
      getWorkGroupBarrierLiterals NDEBUG wg ⟨[.constInt a0]⟩ = some (a0, wg, wg)) ∧
    (∀ (a0 a1 : Nat) (arg2 : Value), a0 < 2 ^ 32 → a1 < 2 ^ 32 →
      getWorkGroupBarrierLiterals NDEBUG wg ⟨[.constInt a0, .constInt a1, arg2]⟩ =
        some (a0, ⟨a1⟩, wg)) ∧
    (∀ (CI : CallInst) (r : Nat × OCLScopeKind × OCLScopeKind),
      getWorkGroupBarrierLiterals NDEBUG wg CI = some r → r.2.2 = wg) := by
  have hnarrow : ∀ v : Nat, v % UINT64_MOD % UINT_MOD = v % 2 ^ 32 := by
    intro v
    simp only [UINT64_MOD, UINT_MOD]
    omega
  have h1 : ∀ a0 : Nat,
      getWorkGroupBarrierLiterals NDEBUG wg ⟨[.constInt a0]⟩ =
        some (a0 % 2 ^ 32, wg, wg) := by
    intro a0
    simp [getWorkGroupBarrierLiterals, CallInst.getNumArgOperands, getArgAsInt, hnarrow]
  have h3 : ∀ (a0 a1 : Nat) (arg2 : Value),
      getWorkGroupBarrierLiterals NDEBUG wg ⟨[.constInt a0, .constInt a1, arg2]⟩ =
        some (a0 % 2 ^ 32, ⟨a1 % 2 ^ 32⟩, wg) := by
    intro a0 a1 arg2
    simp [getWorkGroupBarrierLiterals, CallInst.getNumArgOperands, getArgAsInt, hnarrow]
  refine ⟨h1, h3, ?_, ?_, ?_⟩
  · intro a0 h0
    rw [h1 a0, Nat.mod_eq_of_lt h0]
  · intro a0 a1 arg2 h0 ha1
    rw [h3 a0 a1 arg2, Nat.mod_eq_of_lt h0, Nat.mod_eq_of_lt ha1]
  · intro CI r h
    simp only [getWorkGroupBarrierLiterals] at h
    by_cases hN : NDEBUG = false ∧
        ¬ (CI.getNumArgOperands = 1 ∨ CI.getNumArgOperands = 3)
    · rw [if_pos hN] at h
      cases h
    · rw [if_neg hN] at h
      cases h0 : getArgAsInt CI 0 with
      | none =>
          rw [h0] at h
          cases h
      | some a0 =>
          rw [h0] at h
          by_cases h1N : CI.getNumArgOperands = 1
          · simp only [h1N, if_true, Option.some.injEq] at h
            rw [← h]
          · cases h1 : getArgAsInt CI 1 with
            | none =>
                simp only [h1N, if_false, h1] at h
                cases h
            | some a1 =>
                simp only [h1N, if_false, h1, Option.some.injEq] at h
                rw [← h]

/-- Witness of C12: a 3-argument call with the literals 3 and 2, with
assertions enabled. -/
theorem getWorkGroupBarrierLiterals_default_witness :
    getWorkGroupBarrierLiterals false ⟨1⟩ ⟨[.constInt 3, .constInt 2, .other]⟩ =
      some (3, ⟨2⟩, ⟨1⟩) ∧
    ((3 : Nat), (⟨2⟩ : OCLScopeKind), (⟨1⟩ : OCLScopeKind)).2.2 = ⟨1⟩ :=
  ⟨(getWorkGroupBarrierLiterals_default false ⟨1⟩).2.2.2.1 3 2 .other (by decide) (by decide),
   (getWorkGroupBarrierLiterals_default false ⟨1⟩).2.2.2.2
     ⟨[.constInt 3, .constInt 2, .other]⟩ (3, ⟨2⟩, ⟨1⟩) (by decide)⟩

/-- C19: `getAtomicBuiltinNumMemoryOrderArgs` returns 2 exactly for the names
that contain `compare_exchange_strong` and 1 for every other name; a name that
contains `compare_exchange_weak` but not `compare_exchange_strong` gets 1; the
result is always 1 or 2. -/
theorem getAtomicBuiltinNumMemoryOrderArgs_spec (Name : List Char) :
    (getAtomicBuiltinNumMemoryOrderArgs Name = 2 ↔
      "compare_exchange_strong".toList <:+: Name) ∧
    (¬ "compare_exchange_strong".toList <:+: Name →
      getAtomicBuiltinNumMemoryOrderArgs Name = 1) ∧
    ("compare_exchange_weak".toList <:+: Name →
      ¬ "compare_exchange_strong".toList <:+: Name →
      getAtomicBuiltinNumMemoryOrderArgs Name = 1) ∧
    (getAtomicBuiltinNumMemoryOrderArgs Name = 1 ∨
      getAtomicBuiltinNumMemoryOrderArgs Name = 2) := by
  have hiff := find_isSome_iff Name "compare_exchange_strong".toList
  unfold getAtomicBuiltinNumMemoryOrderArgs
  cases hf : find Name "compare_exchange_strong".toList with
  | none =>
      rw [hf] at hiff
      have hno : ¬ "compare_exchange_strong".toList <:+: Name := fun h => by
        have := hiff.2 h
        cases this
      refine ⟨?_, ?_, ?_, ?_⟩
      · constructor
        · intro h
          simp at h
        · intro h
          exact absurd h hno
      · intro _
        simp
      · intro _ _
        simp
      · left
        simp
  | some i =>
      rw [hf] at hiff
      have hyes : "compare_exchange_strong".toList <:+: Name := hiff.1 rfl
      refine ⟨?_, ?_, ?_, ?_⟩
      · constructor
        · intro _
          exact hyes
        · intro _
          simp
      · intro h
        exact absurd hyes h
      · intro _ h
        exact absurd hyes h
      · right
        simp

/-- Witness of C19: `atomic_compare_exchange_weak_explicit` gets 1. -/
theorem getAtomicBuiltinNumMemoryOrderArgs_spec_witness :
    getAtomicBuiltinNumMemoryOrderArgs "atomic_compare_exchange_weak_explicit".toList = 1 :=
  (getAtomicBuiltinNumMemoryOrderArgs_spec
    "atomic_compare_exchange_weak_explicit".toList).2.2.1 (by decide) (by decide)

/-- C20: the reserved-id address-space option influences only
`OpTypeReserveId`.  For every opcode other than `OpTypeReserveId` the result is
the same for every two values of the option; for `OpTypeReserveId` it is the
value of the option; it is Global for `OpTypePipe`, `OpTypeQueue`,
`OpTypeEvent`, `OpTypeDeviceEvent` and `OpTypeSampler`, and Private for every
other opcode. -/
theorem getOCLOpaqueTypeAddrSpace_option (a b : SPIRAddressSpace) :
    (∀ op : Op, op ≠ .OpTypeReserveId →
      getOCLOpaqueTypeAddrSpace a op = getOCLOpaqueTypeAddrSpace b op) ∧
    getOCLOpaqueTypeAddrSpace a .OpTypeReserveId = a ∧
    (∀ op : Op, op ∈ [Op.OpTypePipe, .OpTypeQueue, .OpTypeEvent, .OpTypeDeviceEvent,
        .OpTypeSampler] → getOCLOpaqueTypeAddrSpace a op = .SPIRAS_Global) ∧
    (∀ op : Op, op ∉ [Op.OpTypePipe, .OpTypeQueue, .OpTypeEvent, .OpTypeDeviceEvent,
        .OpTypeSampler, .OpTypeReserveId] →
      getOCLOpaqueTypeAddrSpace a op = .SPIRAS_Private) := by
  refine ⟨?_, rfl, ?_, ?_⟩
  · intro op h
    cases op <;> first | rfl | exact absurd rfl h
  · intro op h
    simp only [List.mem_cons, List.mem_singleton, List.not_mem_nil, or_false] at h
    rcases h with rfl | rfl | rfl | rfl | rfl <;> rfl
  · intro op h
    cases op <;> first | rfl | simp at h

/-- Witness of C20: for `OpTypeEvent` the option is irrelevant; for an opcode
outside the six named ones the result is Private. -/
theorem getOCLOpaqueTypeAddrSpace_option_witness :
    getOCLOpaqueTypeAddrSpace .SPIRAS_Global .OpTypeEvent =
      getOCLOpaqueTypeAddrSpace .SPIRAS_Private .OpTypeEvent ∧
    getOCLOpaqueTypeAddrSpace .SPIRAS_Global (.other 0) = .SPIRAS_Private :=
  ⟨(getOCLOpaqueTypeAddrSpace_option .SPIRAS_Global .SPIRAS_Private).1 .OpTypeEvent
      (by decide),
   (getOCLOpaqueTypeAddrSpace_option .SPIRAS_Global .SPIRAS_Private).2.2.2 (.other 0)
      (by decide)⟩

/-! ## Name rules, continued -/

/-- C13: `uconvert_` names lose their leading `u` and mark argument 0
unsigned.  For every name that starts with `uconvert_`, `init` yields the name
without its first character, which starts with `convert_` and is otherwise
unchanged, and the rule list is exactly [arg0: Unsigned];
`uconvert_sat_short2` gives `convert_sat_short2`. -/
theorem init_uconvert (K : kOCLBuiltinName) (rest : List Char) :
    init K BtnInfo ("uconvert_".toList ++ rest) =
      some ⟨"convert_".toList ++ rest, [⟨0, .Unsigned⟩]⟩ ∧
    "convert_".toList ++ rest = ("uconvert_".toList ++ rest).drop 1 ∧
    init K BtnInfo "uconvert_sat_short2".toList =
      some ⟨"convert_sat_short2".toList, [⟨0, .Unsigned⟩]⟩ := by
  refine ⟨?_, rfl, ?_⟩ <;>
    simp [init, Spec.buildRules, Spec.table, findAt0_eq_starts, Spec.starts, Spec.exactly,
      Spec.contains, Spec.eraseChar, BtnInfo, addUnsignedArg, setArgAttr, addVoidPtrArg,
      addAtomicArg, addSamplerArg, setEnumArg, record, eraseName, erase, charAt]

/-- C14: `get_fence` rules.  For every name that starts with `get_fence`,
`init` leaves the name unchanged and the rule list is exactly
[last-arg: Unsigned, arg0: ConstPointer, arg0: VoidPointer]; for every other
name that starts with `get_` the name is unchanged and the rule list is
exactly [last-arg: Unsigned]. -/
theorem init_get_fence (K : kOCLBuiltinName) :
    (∀ rest : List Char,
      init K BtnInfo ("get_fence".toList ++ rest) =
        some ⟨"get_fence".toList ++ rest,
          [⟨-1, .Unsigned⟩, ⟨0, .ConstPointer⟩, ⟨0, .VoidPointer⟩]⟩) ∧
    (∀ name : List Char, "get_".toList <+: name → ¬ "get_fence".toList <+: name →
      init K BtnInfo name = some ⟨name, [⟨-1, .Unsigned⟩]⟩) := by
  constructor
  · intro rest
    simp [init, Spec.buildRules, Spec.table, findAt0_eq_starts, Spec.starts, Spec.exactly,
      Spec.contains, Spec.eraseChar, BtnInfo, addUnsignedArg, setArgAttr, addVoidPtrArg,
      addAtomicArg, addSamplerArg, setEnumArg, record, eraseName, erase, charAt]
  · rintro name ⟨rest, rfl⟩ hnf
    simp at hnf
    simp [init, Spec.buildRules, Spec.table, findAt0_eq_starts, Spec.starts, Spec.exactly,
      Spec.contains, Spec.eraseChar, BtnInfo, addUnsignedArg, setArgAttr, addVoidPtrArg,
      addAtomicArg, addSamplerArg, setEnumArg, record, eraseName, erase, charAt, hnf]

/-- Witness of C14: `get_global_id` starts with `get_` but not with
`get_fence`. -/
theorem init_get_fence_witness :
    init sampledNames BtnInfo "get_global_id".toList =
      some ⟨"get_global_id".toList, [⟨-1, .Unsigned⟩]⟩ :=
  (init_get_fence sampledNames).2 "get_global_id".toList (by decide) (by decide)

/-- C18: the `ndrange_` row never reads out of range and decides on the
character at offset 8.  For every name that starts with `ndrange_`, the
8-character name `ndrange_` included, `init` succeeds and leaves the name
unchanged; the rules are [last-arg: Unsigned, last-arg: ConstPointer] when the
name has a character at offset 8 that is `2` or `3`, and exactly
[last-arg: Unsigned] otherwise. -/
theorem init_ndrange (K : kOCLBuiltinName) (rest : List Char) :
    init K BtnInfo ("ndrange_".toList ++ rest) =
      some ⟨"ndrange_".toList ++ rest,
        if ("ndrange_".toList ++ rest).get? 8 = some '2' ∨
            ("ndrange_".toList ++ rest).get? 8 = some '3' then
          [⟨-1, .Unsigned⟩, ⟨-1, .ConstPointer⟩]
        else [⟨-1, .Unsigned⟩]⟩ ∧
    init K BtnInfo "ndrange_".toList = some ⟨"ndrange_".toList, [⟨-1, .Unsigned⟩]⟩ := by
  refine ⟨?_, by simp [init, Spec.buildRules, Spec.table, findAt0_eq_starts, Spec.starts, Spec.exactly,
      Spec.contains, Spec.eraseChar, BtnInfo, addUnsignedArg, setArgAttr, addVoidPtrArg,
      addAtomicArg, addSamplerArg, setEnumArg, record, eraseName, erase, charAt]⟩
  cases rest with
  | nil => simp [init, Spec.buildRules, Spec.table, findAt0_eq_starts, Spec.starts, Spec.exactly,
      Spec.contains, Spec.eraseChar, BtnInfo, addUnsignedArg, setArgAttr, addVoidPtrArg,
      addAtomicArg, addSamplerArg, setEnumArg, record, eraseName, erase, charAt]
  | cons c r =>
      by_cases hc2 : c = '2'
      · subst hc2
        simp [init, Spec.buildRules, Spec.table, findAt0_eq_starts, Spec.starts, Spec.exactly,
      Spec.contains, Spec.eraseChar, BtnInfo, addUnsignedArg, setArgAttr, addVoidPtrArg,
      addAtomicArg, addSamplerArg, setEnumArg, record, eraseName, erase, charAt]
      by_cases hc3 : c = '3'
      · subst hc3
        simp [init, Spec.buildRules, Spec.table, findAt0_eq_starts, Spec.starts, Spec.exactly,
      Spec.contains, Spec.eraseChar, BtnInfo, addUnsignedArg, setArgAttr, addVoidPtrArg,
      addAtomicArg, addSamplerArg, setEnumArg, record, eraseName, erase, charAt]
      simp [init, Spec.buildRules, Spec.table, findAt0_eq_starts, Spec.starts, Spec.exactly,
      Spec.contains, Spec.eraseChar, BtnInfo, addUnsignedArg, setArgAttr, addVoidPtrArg,
      addAtomicArg, addSamplerArg, setEnumArg, record, eraseName, erase, charAt, hc2, hc3]

/-- The first occurrence of a pattern is where `find` finds it. -/
theorem find_first (p pre post : List Char)
    (h : ∀ j, j < pre.length → ¬ p <+: (pre ++ p ++ post).drop j) :
    find (pre ++ p ++ post) p = some pre.length := by
  induction pre with
  | nil =>
      apply (find_eq_zero_iff _ _).2
      simp
  | cons c pre ih =>
      have h0 : ¬ p <+: c :: (pre ++ p ++ post) := by
        have := h 0 (by simp)
        simpa using this
      have h0b : p.isPrefixOf (c :: (pre ++ p ++ post)) = false := by
        rw [Bool.eq_false_iff]
        exact fun hb => h0 (List.isPrefixOf_iff_prefix.1 hb)
      have ih2 := ih (fun j hj => by
        have := h (j + 1) (by simp only [List.length_cons]; omega)
        simpa using this)
      have step : find (c :: (pre ++ p ++ post)) p =
          (find (pre ++ p ++ post) p).map (· + 1) := by
        generalize pre ++ p ++ post = t at h0b
        simp only [find, h0b, Bool.false_eq_true, if_false]
      have e : c :: pre ++ p ++ post = c :: (pre ++ p ++ post) := rfl
      rw [e, step, ih2]
      rfl

/-- Where `find` finds a pattern is its first occurrence. -/
theorem find_decompose (s p : List Char) :
    ∀ i, find s p = some i →
      ∃ pre post, s = pre ++ p ++ post ∧ pre.length = i ∧
        ∀ j, j < pre.length → ¬ p <+: s.drop j := by
  induction s with
  | nil =>
      intro i h
      simp only [find] at h
      split_ifs at h with hp
      cases h
      have hp2 : p = [] := by simpa using hp
      exact ⟨[], [], by simp [hp2], rfl, fun j hj => absurd hj (by simp)⟩
  | cons c t ih =>
      intro i h
      simp only [find] at h
      by_cases hp : p.isPrefixOf (c :: t) = true
      · simp only [hp, if_true, Option.some.injEq] at h
        obtain ⟨post, hpost⟩ := List.isPrefixOf_iff_prefix.1 hp
        exact ⟨[], post, by simp [hpost], by simpa using h, fun j hj => absurd hj (by simp)⟩
      · simp only [hp, Bool.false_eq_true, if_false] at h
        have hp2 : ¬ p <+: c :: t := fun h2 => hp (List.isPrefixOf_iff_prefix.2 h2)
        cases hf : find t p with
        | none => simp [hf] at h
        | some k =>
            simp only [hf, Option.map_some', Option.some.injEq] at h
            obtain ⟨pre, post, hs, hlen, hfirst⟩ := ih k hf
            refine ⟨c :: pre, post, by simp [hs], by simp [hlen, h], ?_⟩
            intro j hj
            cases j with
            | zero => simpa using hp2
            | succ j =>
                simp only [List.drop_succ_cons]
                exact hfirst j (by simpa using hj)

/-- Erasing the character that follows `pre`. -/
theorem erase_after (pre t : List Char) (c : Char) :
    erase (pre ++ c :: t) pre.length 1 = some (pre ++ t) := by
  simp [erase]

/-- When none of the first fourteen rows matches, `init` is decided by the
search for `umax`, then `umin`. -/
theorem init_of_no_earlier_row (K : kOCLBuiltinName) (name : List Char)
    (hno : ∀ r ∈ (Spec.table K).take 14, r.pattern name = false) :
    (∀ Pos, find name "umax".toList = some Pos →
      init K BtnInfo name =
        (erase name Pos 1).map (fun s => ⟨s, [⟨-1, .Unsigned⟩]⟩)) ∧
    (find name "umax".toList = none → ∀ Pos, find name "umin".toList = some Pos →
      init K BtnInfo name =
        (erase name Pos 1).map (fun s => ⟨s, [⟨-1, .Unsigned⟩]⟩)) := by
  simp only [Spec.table, List.take_succ_cons, List.take_zero, List.forall_mem_cons] at hno
  obtain ⟨h1n, h2n, h3n, h4n, h5n, h6n, h7n, h8n, h9n, h10n, h11n, h12n, h13n, h14n, _⟩ := hno
  have h3 : ¬ name = "prefetch".toList := of_decide_eq_false h3n
  have h9 : ¬ name = "capture_event_profiling_info".toList := of_decide_eq_false h9n
  have h10 : ¬ name = "enqueue_kernel".toList := of_decide_eq_false h10n
  have h11 : ¬ name = "enqueue_marker".toList := of_decide_eq_false h11n
  have h4i : (Spec.starts "get_" name || Spec.starts "barrier" name ||
      Spec.starts "work_group_barrier" name || decide (name = "nan".toList) ||
      decide (name = "mem_fence".toList) || Spec.starts "shuffle" name) = false := h4n
  constructor
  · intro Pos hf
    simp only [init, findAt0_eq_starts, if_true, if_false,
    Bool.false_eq_true, BtnInfo, addUnsignedArg, record, eraseName, List.nil_append, h1n, h2n, h3, h4i, h5n, h6n, h7n, h8n, h9, h10, h11, h12n, h13n, h14n, hf]
  · intro hf Pos hf2
    simp only [init, findAt0_eq_starts, if_true, if_false,
    Bool.false_eq_true, BtnInfo, addUnsignedArg, record, eraseName, List.nil_append, h1n, h2n, h3, h4i, h5n, h6n, h7n, h8n, h9, h10, h11, h12n, h13n, h14n, hf,
      hf2]

/-- C17: which `u` the generic umax/umin row erases.  For every name that
matches none of the fourteen earlier rows: if `umax` occurs in it, with first
occurrence after `pre`, the edited name is `pre`, `max` and what followed, so
the one erased character is the `u` of the first `umax`, also when `umin`
occurs earlier; if `umax` does not occur and `umin` does, the erased character
is the `u` of the first `umin`.  In both cases the rule list is exactly
[last-arg: Unsigned].  `umin_umax` becomes `umin_max`. -/
theorem init_umax_umin (K : kOCLBuiltinName) :
    (∀ name : List Char, (∀ r ∈ (Spec.table K).take 14, r.pattern name = false) →
      (∀ pre post : List Char, name = pre ++ "umax".toList ++ post →
        (∀ j, j < pre.length → ¬ "umax".toList <+: name.drop j) →
        init K BtnInfo name = some ⟨pre ++ "max".toList ++ post, [⟨-1, .Unsigned⟩]⟩) ∧
      (¬ "umax".toList <:+: name →
        ∀ pre post : List Char, name = pre ++ "umin".toList ++ post →
        (∀ j, j < pre.length → ¬ "umin".toList <+: name.drop j) →
        init K BtnInfo name = some ⟨pre ++ "min".toList ++ post, [⟨-1, .Unsigned⟩]⟩) ∧
      ("umax".toList <:+: name →
        ∃ pre post : List Char, name = pre ++ "umax".toList ++ post ∧
          (∀ j, j < pre.length → ¬ "umax".toList <+: name.drop j) ∧
          init K BtnInfo name = some ⟨pre ++ "max".toList ++ post, [⟨-1, .Unsigned⟩]⟩) ∧
      (¬ "umax".toList <:+: name → "umin".toList <:+: name →
        ∃ pre post : List Char, name = pre ++ "umin".toList ++ post ∧
          (∀ j, j < pre.length → ¬ "umin".toList <+: name.drop j) ∧
          init K BtnInfo name = some ⟨pre ++ "min".toList ++ post, [⟨-1, .Unsigned⟩]⟩)) ∧
    init K BtnInfo "umin_umax".toList = some ⟨"umin_max".toList, [⟨-1, .Unsigned⟩]⟩ := by
  constructor
  · intro name hno
    obtain ⟨hA, hB⟩ := init_of_no_earlier_row K name hno
    have hmax : ∀ pre post : List Char, name = pre ++ "umax".toList ++ post →
        (∀ j, j < pre.length → ¬ "umax".toList <+: name.drop j) →
        init K BtnInfo name =
          some ⟨pre ++ "max".toList ++ post, [⟨-1, .Unsigned⟩]⟩ := by
      intro pre post hname hfirst
      subst hname
      have hf := find_first "umax".toList pre post hfirst
      rw [hA pre.length hf]
      have he : erase (pre ++ "umax".toList ++ post) pre.length 1 =
          some (pre ++ "max".toList ++ post) := by
        have := erase_after pre ("max".toList ++ post) 'u'
        simpa using this
      rw [he]
      rfl
    have hmin : ¬ "umax".toList <:+: name →
        ∀ pre post : List Char, name = pre ++ "umin".toList ++ post →
        (∀ j, j < pre.length → ¬ "umin".toList <+: name.drop j) →
        init K BtnInfo name =
          some ⟨pre ++ "min".toList ++ post, [⟨-1, .Unsigned⟩]⟩ := by
      intro hnot pre post hname hfirst
      have hnone : find name "umax".toList = none := by
        cases hf : find name "umax".toList with
        | none => rfl
        | some i =>
            exact absurd ((find_isSome_iff name "umax".toList).1 (by rw [hf]; rfl)) hnot
      subst hname
      have hf := find_first "umin".toList pre post hfirst
      rw [hB hnone pre.length hf]
      have he : erase (pre ++ "umin".toList ++ post) pre.length 1 =
          some (pre ++ "min".toList ++ post) := by
        have := erase_after pre ("min".toList ++ post) 'u'
        simpa using this
      rw [he]
      rfl
    refine ⟨hmax, hmin, ?_, ?_⟩
    · intro hin
      cases hf : find name "umax".toList with
      | none =>
          have := (find_isSome_iff name "umax".toList).2 hin
          rw [hf] at this
          cases this
      | some i =>
          obtain ⟨pre, post, hs, _, hfirst⟩ := find_decompose name "umax".toList i hf
          exact ⟨pre, post, hs, hfirst, hmax pre post hs hfirst⟩
    · intro hnot hin
      cases hf : find name "umin".toList with
      | none =>
          have := (find_isSome_iff name "umin".toList).2 hin
          rw [hf] at this
          cases this
      | some i =>
          obtain ⟨pre, post, hs, _, hfirst⟩ := find_decompose name "umin".toList i hf
          exact ⟨pre, post, hs, hfirst, hmin hnot pre post hs hfirst⟩
  · simp [init, Spec.buildRules, Spec.table, findAt0_eq_starts, Spec.starts, Spec.exactly,
      Spec.contains, Spec.eraseChar, BtnInfo, addUnsignedArg, setArgAttr, addVoidPtrArg,
      addAtomicArg, addSamplerArg, setEnumArg, record, eraseName, erase, charAt, find]

/-- Witness of C17: in `umin_umax` the first `umax` starts at offset 5, after
an occurrence of `umin`. -/
theorem init_umax_umin_witness :
    init sampledNames BtnInfo ("umin_".toList ++ "umax".toList ++ []) =
      some ⟨"umin_".toList ++ "max".toList ++ [], [⟨-1, .Unsigned⟩]⟩ :=
  ((init_umax_umin sampledNames).1 ("umin_".toList ++ "umax".toList ++ []) (by decide)).1
    "umin_".toList [] rfl (by decide)

/-- C16: stripping undoes the classifier's signedness prefix and is never
shadowed.  For every string `D`, `init` on `s_D` yields `D` with no rule and
on `u_D` yields `D` with exactly [last-arg: Unsigned]; none of the rows above
the `s_` row matches `s_D` and none of the rows above the `u_` row matches
`u_D`; no second edit is applied: `u_umax` gives `umax`, `s_umax` gives
`umax`. -/
theorem init_strip_prefix (K : kOCLBuiltinName) (D : List Char) :
    init K BtnInfo ("s_".toList ++ D) = some ⟨D, []⟩ ∧
    init K BtnInfo ("u_".toList ++ D) = some ⟨D, [⟨-1, .Unsigned⟩]⟩ ∧
    (∀ r ∈ (Spec.table K).take 6, r.pattern ("s_".toList ++ D) = false) ∧
    (∀ r ∈ (Spec.table K).take 7, r.pattern ("u_".toList ++ D) = false) ∧
    init K BtnInfo "u_umax".toList = some ⟨"umax".toList, [⟨-1, .Unsigned⟩]⟩ ∧
    init K BtnInfo "s_umax".toList = some ⟨"umax".toList, []⟩ := by
  refine ⟨?_, ?_, ?_, ?_, ?_, ?_⟩
  · simp [init, Spec.buildRules, Spec.table, findAt0_eq_starts, Spec.starts, Spec.exactly,
      Spec.contains, Spec.eraseChar, BtnInfo, addUnsignedArg, setArgAttr, addVoidPtrArg,
      addAtomicArg, addSamplerArg, setEnumArg, record, eraseName, erase, charAt]
  · simp [init, Spec.buildRules, Spec.table, findAt0_eq_starts, Spec.starts, Spec.exactly,
      Spec.contains, Spec.eraseChar, BtnInfo, addUnsignedArg, setArgAttr, addVoidPtrArg,
      addAtomicArg, addSamplerArg, setEnumArg, record, eraseName, erase, charAt]
  · simp [Spec.table, Spec.starts, Spec.exactly]
  · simp [Spec.table, Spec.starts, Spec.exactly]
  · simp [init, Spec.buildRules, Spec.table, findAt0_eq_starts, Spec.starts, Spec.exactly,
      Spec.contains, Spec.eraseChar, BtnInfo, addUnsignedArg, setArgAttr, addVoidPtrArg,
      addAtomicArg, addSamplerArg, setEnumArg, record, eraseName, erase, charAt]
  · simp [init, Spec.buildRules, Spec.table, findAt0_eq_starts, Spec.starts, Spec.exactly,
      Spec.contains, Spec.eraseChar, BtnInfo, addUnsignedArg, setArgAttr, addVoidPtrArg,
      addAtomicArg, addSamplerArg, setEnumArg, record, eraseName, erase, charAt]

end OCLUtil
